import Mathlib

/-!
Shallow embedding of the `maker` repository's artifact/manifest tracking core
(`src/maker/shared.py`, `src/maker/video/downloader.py`,
`src/maker/video/cutter.py`) and proofs about it.

Python strings are modelled as `List Char` (with `String`-taking wrappers),
Python floats as `ℚ` (every numeric literal and comparison appearing in the
verified claims is exactly representable, so the binary64/ℚ gap is
irrelevant to them), and fallible Python code as `Except MakerErr`.
-/

namespace Maker

/-- Decidable equality for `Except`, needed to settle concrete runs of the
embedded fallible operations by `decide`. -/
instance {ε α : Type} [DecidableEq ε] [DecidableEq α] : DecidableEq (Except ε α) := fun a b =>
  match a, b with
  | .ok x, .ok y =>
    if h : x = y then .isTrue (by rw [h]) else .isFalse (by intro hc; cases hc; exact h rfl)
  | .error x, .error y =>
    if h : x = y then .isTrue (by rw [h]) else .isFalse (by intro hc; cases hc; exact h rfl)
  | .ok _, .error _ => .isFalse (by intro hc; cases hc)
  | .error _, .ok _ => .isFalse (by intro hc; cases hc)

/-! ### Python string primitives

These model the CPython builtins used by `shared.py`: `str.strip`,
`str.split(sep)`, `int(text)` and `float(text)`. -/

/-- ASCII whitespace stripped by Python's `str.strip()` (the claims never
exercise non-ASCII whitespace). -/
def pySpace (c : Char) : Bool :=
  c == ' ' || c == '\t' || c == '\n' || c == '\r' || c == '\x0b' || c == '\x0c'

/-- Drop matching characters from the right end. -/
def dropRightWhile (p : Char → Bool) (l : List Char) : List Char :=
  (l.reverse.dropWhile p).reverse

/-- Python `str.strip()`. -/
def pyStrip (l : List Char) : List Char :=
  dropRightWhile pySpace (l.dropWhile pySpace)

/-- Python `str.split(sep)` for a one-character separator: splits on every
occurrence, keeping empty pieces, and yields `[""]` on the empty string. -/
def splitOnChar (sep : Char) : List Char → List (List Char)
  | [] => [[]]
  | c :: r =>
    if c = sep then [] :: splitOnChar sep r
    else
      match splitOnChar sep r with
      | [] => [[c]]
      | h :: t => (c :: h) :: t

/-- Numeric value of a decimal digit character. -/
def digitVal (c : Char) : Nat := c.toNat - '0'.toNat

/-- Value of a big-endian decimal digit string. -/
def natOfDigits (l : List Char) : Nat :=
  l.foldl (fun a c => 10 * a + digitVal c) 0

/-- Consume an optional leading sign, as `int()`/`float()` do. -/
def takeSign (l : List Char) : Int × List Char :=
  match l with
  | [] => (1, [])
  | c :: r => if c = '+' then (1, r) else if c = '-' then (-1, r) else (1, c :: r)

/-- Python `int(text)`: optional surrounding whitespace, optional sign, then a
nonempty run of decimal digits.  (Digit-grouping underscores, which no claim
exercises, are not modelled.) -/
def pyInt (l : List Char) : Option Int :=
  let t := pyStrip l
  let s := takeSign t
  if s.2 ≠ [] ∧ s.2.all Char.isDigit then some (s.1 * natOfDigits s.2) else none

/-- Python `float(text)` restricted to finite decimal notation: optional
surrounding whitespace, optional sign, digits with at most one point and at
least one digit overall.  (Exponent notation, `inf`/`nan` and grouping
underscores, which no claim exercises, are not modelled.) -/
def pyFloat (l : List Char) : Option ℚ :=
  let t := pyStrip l
  let s := takeSign t
  match splitOnChar '.' s.2 with
  | [a] =>
    if a ≠ [] ∧ a.all Char.isDigit then some (s.1 * natOfDigits a) else none
  | [a, b] =>
    if (a ≠ [] ∨ b ≠ []) ∧ a.all Char.isDigit ∧ b.all Char.isDigit then
      some (s.1 * ((natOfDigits a : ℚ) + natOfDigits b / 10 ^ b.length))
    else none
  | _ => none

/-! ### Error taxonomy (`shared.py`, `cutter.py`, `downloader.py`)

`pyJsonError` stands for the raw Python exceptions (`json.JSONDecodeError`,
`TypeError`) escaping the manifest readers, and `rawFfmpegError` for an
uncaught `ffmpeg.Error`, as distinct from the repository's own wrapper
`FFmpegError`. -/
inductive MakerErr where
  | invalidTimeFormat (text : List Char)
  | timeRange (start stop : ℚ)
  | unsupportedFormat
  | fileAlreadyExists (path : String)
  | noAudioStream (path : String)
  | ffmpegError
  | rawFfmpegError
  | aliasNotFound (name : String)
  | notFoundForAlias (source : String)
  | pyJsonError
deriving DecidableEq

/-! ### Time parser (`shared.py` lines 137–207) -/

/-- `parse_time` on a character list.  Mirrors `shared.parse_time`: try
`float(time_str)` first; otherwise strip and split on `':'`; with three parts
read hours, minutes and a seconds field, with two parts minutes and a seconds
field; the seconds field is split on `'.'` into an integer seconds part and —
when present — an integer **milliseconds count** (`int(sec_parts[1])`),
contributing `millis / 1000`.  Any failing `int()` falls through to
`InvalidTimeFormat`. -/
def parseTimeL (l : List Char) : Except MakerErr ℚ :=
  match pyFloat l with
  | some v => .ok v
  | none =>
    match splitOnChar ':' (pyStrip l) with
    | [p0, p1, p2] =>
      let sp := splitOnChar '.' p2
      (match pyInt p0, pyInt p1, pyInt (sp.headD []),
             (if sp.length > 1 then pyInt (sp.getD 1 []) else some 0) with
       | some h, some m, some s, some ms =>
         .ok ((h : ℚ) * 3600 + (m : ℚ) * 60 + (s : ℚ) + (ms : ℚ) / 1000)
       | _, _, _, _ => .error (.invalidTimeFormat l))
    | [p0, p1] =>
      let sp := splitOnChar '.' p1
      (match pyInt p0, pyInt (sp.headD []),
             (if sp.length > 1 then pyInt (sp.getD 1 []) else some 0) with
       | some m, some s, some ms =>
         .ok ((m : ℚ) * 60 + (s : ℚ) + (ms : ℚ) / 1000)
       | _, _, _ => .error (.invalidTimeFormat l))
    | _ => .error (.invalidTimeFormat l)

/-- `shared.parse_time` on a `String`. -/
def parse_time (s : String) : Except MakerErr ℚ := parseTimeL s.data

/-- `shared.parse_range`: parse both endpoints (start first, so its error
propagates first) and reject `start >= end`. -/
def parse_range (s e : String) : Except MakerErr (ℚ × ℚ) :=
  match parse_time s with
  | .error err => .error err
  | .ok a =>
    match parse_time e with
    | .error err => .error err
    | .ok b => if a ≥ b then .error (.timeRange a b) else .ok (a, b)

/-! ### Time formatting (`shared.py` lines 177–182) -/

/-- Kernel-computable floor of a rational (`Rat.floor_def` shows it agrees
with `⌊·⌋`). -/
def qfloor (x : ℚ) : ℤ := x.num / x.den

/-- Python's float `%`/`//` pair: `pyMod a b = a - b * ⌊a / b⌋`. -/
def pyMod (a b : ℚ) : ℚ := a - b * qfloor (a / b)

/-- Round to the nearest integer, ties to even — the rounding performed by
`"%.3f"` formatting (CPython rounds the decimal expansion half-to-even). -/
def roundEven (x : ℚ) : ℤ :=
  let n := qfloor x
  if x - n < 1 / 2 then n
  else if x - n > 1 / 2 then n + 1
  else if n % 2 = 0 then n else n + 1

/-- Little-endian decimal digit characters of `n`, fuel-structured so the
kernel can evaluate it; agrees with `Nat.digits 10` (see
`natDigitsRev_eq_digits`). -/
def natDigitsRev (fuel n : Nat) : List Char :=
  match fuel with
  | 0 => []
  | fuel + 1 => if n = 0 then [] else Nat.digitChar (n % 10) :: natDigitsRev fuel (n / 10)

/-- Big-endian decimal digits of `n` (Python `str(n)` for `n : Nat`). -/
def renderNat (n : Nat) : List Char :=
  if n = 0 then ['0'] else (natDigitsRev (n + 1) n).reverse

/-- Zero-pad on the left to width `w` (`"%0wd"` for a nonnegative value). -/
def padZero (w : Nat) (l : List Char) : List Char :=
  List.replicate (w - l.length) '0' ++ l

/-- `"%06.3f"` applied to a nonnegative seconds value: the seconds rounded to
three decimals, integer part zero-padded to two digits, exactly three
fractional digits.  (`format_time` only ever receives nonnegative values in
the claims; negative values are not modelled.) -/
def formatSecs (s : ℚ) : List Char :=
  let ms := (roundEven (s * 1000)).toNat
  padZero 2 (renderNat (ms / 1000)) ++ '.' :: padZero 3 (renderNat (ms % 1000))

/-- `shared.format_time`: `HH:MM:SS.mmm` with
`hours = int(seconds // 3600)`, `minutes = int((seconds % 3600) // 60)`,
`secs = seconds % 60` rendered as `"%06.3f"`. -/
def format_time (x : ℚ) : String :=
  let hours := (qfloor (x / 3600)).toNat
  let minutes := (qfloor (pyMod x 3600 / 60)).toNat
  ⟨padZero 2 (renderNat hours) ++ ':' ::
    (padZero 2 (renderNat minutes) ++ ':' :: formatSecs (pyMod x 60))⟩

/-! ### Data model (`shared.py` lines 210–249)

`downloaded_files` entries are the `{path, ext, filesize}` dicts the
downloader records; `yt_dlp_opts` / `ffmpeg_params` dicts are modelled as
association lists of strings (their contents are opaque to every claim). -/

/-- One entry of `DownloadSpec.downloaded_files`. -/
structure DownloadedFile where
  path : String
  ext : String
  filesize : Nat
deriving DecidableEq

/-- `shared.DownloadSpec`. -/
structure DownloadSpec where
  source_url : String
  video_id : String
  alias_ : String
  downloaded_files : List DownloadedFile
  yt_dlp_opts : List (String × String)
  created_at : String
  title : String
  duration : ℚ
deriving DecidableEq

/-- `shared.ClipSpec` (the field `end` is a Lean keyword; it is rendered
`stop`). -/
structure ClipSpec where
  artifact_path : String
  start : ℚ
  stop : ℚ
  format : String
  ffmpeg_params : List (String × String)
  derived_from : String
  source_hash : String
  created_at : String
deriving DecidableEq

/-- `shared.AudioSpec` — field-for-field identical to `ClipSpec` in the
source; kept as its own structure to mirror the two dataclasses. -/
structure AudioSpec where
  artifact_path : String
  start : ℚ
  stop : ℚ
  format : String
  ffmpeg_params : List (String × String)
  derived_from : String
  source_hash : String
  created_at : String
deriving DecidableEq

/-! ### Manifest store (`shared.py` lines 252–298)

The downloads directory is modelled as a list of subdirectories, each with a
named set of files.  A file that is a parseable manifest carries its
`DownloadSpec`; `malformed` covers both unparseable JSON (`json.load`
raising) and a JSON object missing required `DownloadSpec` fields
(`DownloadSpec(**data)` raising `TypeError`). -/

/-- Content of one file inside an alias directory. -/
inductive ManifestContent where
  | valid (spec : DownloadSpec)
  | malformed
deriving DecidableEq

/-- One alias directory under the downloads directory. -/
structure DirEntry where
  name : String
  files : List (String × ManifestContent)
deriving DecidableEq

/-- The file named `manifest.json` in the alias directory called `name`,
when both exist — the single candidate of the `*/manifest.json` glob for
that directory. -/
def findManifest (downloads : List DirEntry) (name : String) : Option ManifestContent :=
  (downloads.find? (fun e => e.name == name)).bind
    (fun e => (e.files.find? (fun f => f.1 == "manifest.json")).map Prod.snd)

/-- `ManifestManager.read_download_manifest`: missing `manifest.json` raises
`AliasNotFoundError`; a malformed one lets the underlying `json.load` /
`DownloadSpec(**data)` exception escape. -/
def read_download_manifest (downloads : List DirEntry) (name : String) :
    Except MakerErr DownloadSpec :=
  match findManifest downloads name with
  | none => .error (.aliasNotFound name)
  | some .malformed => .error .pyJsonError
  | some (.valid spec) => .ok spec

/-- `ManifestManager.list_downloads`: iterate the `*/manifest.json` glob
matches (here: the directory list order), parsing each into the result
mapping; any raising parse aborts the whole call. -/
def list_downloads (downloads : List DirEntry) :
    Except MakerErr (List (String × DownloadSpec)) :=
  match downloads with
  | [] => .ok []
  | e :: rest =>
    match (e.files.find? (fun f => f.1 == "manifest.json")).map Prod.snd with
    | none => list_downloads rest
    | some .malformed => .error .pyJsonError
    | some (.valid spec) =>
      match list_downloads rest with
      | .error err => .error err
      | .ok l => .ok ((e.name, spec) :: l)

/-! ### Downloader (`downloader.py` lines 165–223) -/

/-- The metadata fields `get_info` projects out of the extraction result;
each is `Option` because the source reads them with `info.get(...)`
defaults. -/
structure RawInfo where
  title : Option String
  duration : Option ℚ
  uploader : Option String
  view_count : Option Nat
  upload_date : Option String
  description : Option String
  thumbnail : Option String
  webpage_url : Option String
deriving DecidableEq

/-- The fixed projection `get_info` returns on success. -/
structure VideoInfo where
  title : String
  duration : ℚ
  uploader : String
  view_count : Nat
  upload_date : String
  description : String
  thumbnail : String
  webpage_url : String
deriving DecidableEq

/-- `get_info` never raises: it returns either the projection or an
`{"error": message}` dictionary. -/
inductive InfoResult where
  | info (v : VideoInfo)
  | errorValue (msg : String)
deriving DecidableEq

/-- Python `s[:n]` on a string. -/
def pyTake (s : String) (n : Nat) : String := ⟨s.data.take n⟩

/-- `Downloader.get_info`.  The call to `self.extract_info` (a thin wrapper
over the external `yt_dlp` engine) is abstracted as its outcome
`extraction`: either the raw metadata or the message of the exception it
raised. -/
def get_info (extraction : Except String RawInfo) (url : String) : InfoResult :=
  match extraction with
  | .error e => .errorValue e
  | .ok info =>
    .info {
      title := info.title.getD "Unknown"
      duration := info.duration.getD 0
      uploader := info.uploader.getD "Unknown"
      view_count := info.view_count.getD 0
      upload_date := info.upload_date.getD "Unknown"
      description := pyTake (info.description.getD "") 500
      thumbnail := info.thumbnail.getD ""
      webpage_url := info.webpage_url.getD url }

/-- `Downloader._validate_path`: first entry of `downloaded_files` whose
path exists on disk, else `NotFoundForAliasError`. -/
def validate_path (pathOnDisk : String → Bool) (spec : DownloadSpec) (source : String) :
    Except MakerErr String :=
  match spec.downloaded_files.find? (fun f => pathOnDisk f.path) with
  | some f => .ok f.path
  | none => .error (.notFoundForAlias source)

/-- `Downloader.resolve_source`: the whole manifest-read-and-validate
attempt sits in one `try`; on any exception the literal-path fallback runs,
re-raising the original exception when `source` does not exist either. -/
def resolve_source (downloads : List DirEntry) (pathOnDisk : String → Bool)
    (source : String) : Except MakerErr String :=
  match
    (match read_download_manifest downloads source with
     | .ok spec => validate_path pathOnDisk spec source
     | .error e => .error e) with
  | .ok p => .ok p
  | .error e => if pathOnDisk source then .ok source else .error e

/-! ### Cutter (`cutter.py`)

`clip` and `audio` interact with the world through: the set of existing
files, the `ffmpeg.probe` audio probe (which can succeed reporting
presence/absence, or itself raise), the transcode subprocess, the source
file hash and the wall clock.  A `CutWorld` fixes all of these; the
operations return the ordered trace of the stages they performed, the
result, and the updated world. -/

/-- `shared.Format` (the enumeration values used by the cutter). -/
inductive Format where
  | mp4 | mkv | webm | gif | m4a | wav | mp3
deriving DecidableEq

/-- `Format.value` — the extension string of a format. -/
def Format.ext : Format → String
  | .mp4 => "mp4"
  | .mkv => "mkv"
  | .webm => "webm"
  | .gif => "gif"
  | .m4a => "m4a"
  | .wav => "wav"
  | .mp3 => "mp3"

/-- `Cutter.SUPPORTED_VIDEO_FORMATS`. -/
def SUPPORTED_VIDEO_FORMATS : List Format := [.mp4, .mkv, .webm, .gif]

/-- `Cutter.SUPPORTED_AUDIO_FORMATS`. -/
def SUPPORTED_AUDIO_FORMATS : List Format := [.m4a, .wav, .mp3]

/-- The observable stages of a `clip`/`audio` run, in execution order.
`invokeEngine`'s flag records whether an audio stream is included in the
output (`streams = [video, audio]` versus `[video]`; GIF and the palette
pipeline never include audio, the audio operation always does). -/
inductive Step where
  | validateFormat
  | mkdirOutput
  | checkOverwrite
  | hashTimestamp
  | probeAudio
  | invokeEngine (withAudio : Bool)
  | appendRecord
deriving DecidableEq, BEq

/-- One line of an `artifacts.jsonl` log. -/
inductive ArtifactEntry where
  | clipRec (s : ClipSpec)
  | audioRec (s : AudioSpec)
deriving DecidableEq

/-- The environment a cutter invocation runs against.  `probeOutcome` is the
result of `ffmpeg.probe` on the source: `some b` for a successful probe
reporting an audio stream iff `b`, `none` when the probe itself raises
`ffmpeg.Error` (unreadable file, not media, ...).  `artifacts` is the
`<output_dir>/artifacts.jsonl` log of the output directory in use. -/
structure CutWorld where
  files : List String
  probeOutcome : Option Bool
  engineOk : Bool
  sourceHash : String
  now : String
  isMacos : Bool
  artifacts : List ArtifactEntry
deriving DecidableEq

/-- Result of a cutter operation: trace of performed stages, outcome, and
the world after. -/
structure CutResult (α : Type) where
  trace : List Step
  outcome : Except MakerErr α
  world : CutWorld
deriving DecidableEq

/-- `Cutter._get_output_path`:
`<dir>/<stem>_<start with : replaced by -> _to_ <end ...>.<fmt>`. -/
def get_output_path (sourceStem : String) (start stop : ℚ) (fmt : Format)
    (outputDir : String) : String :=
  let dash := fun s : String => ⟨s.data.map (fun c => if c = ':' then '-' else c)⟩
  outputDir ++ "/" ++ sourceStem ++ "_" ++ dash (format_time start) ++ "_to_" ++
    dash (format_time stop) ++ "." ++ fmt.ext

/-- `Cutter._probe_audio`: a raising probe is swallowed into `False`. -/
def probe_audio (w : CutWorld) : Bool := w.probeOutcome.getD false

/-- `Cutter._get_mac_output_kwargs` (the `IS_MACOS` parameter table). -/
def get_mac_output_kwargs (fmt : Format) : List (String × String) :=
  match fmt with
  | .mp4 => [("vcodec", "h264_videotoolbox"), ("acodec", "aac"), ("b:v", "10M")]
  | .mkv => [("vcodec", "libx264"), ("acodec", "aac"), ("f", "matroska")]
  | .webm => [("vcodec", "libvpx-vp9"), ("acodec", "libopus"), ("f", "webm")]
  | .gif => []
  | .m4a => [("acodec", "aac")]
  | .wav => [("acodec", "pcm_s16le")]
  | .mp3 => [("acodec", "libmp3lame")]

/-- `Cutter._get_output_kwargs` (the non-macOS table; on macOS it delegates
to the mac table). -/
def get_output_kwargs (isMacos : Bool) (fmt : Format) : List (String × String) :=
  if isMacos then get_mac_output_kwargs fmt
  else
    match fmt with
    | .mp4 => [("vcodec", "libx264"), ("acodec", "aac"), ("movflags", "+faststart")]
    | .mkv => [("vcodec", "h264_videotoolbox"), ("acodec", "aac"), ("b:v", "10M"),
               ("f", "matroska")]
    | .webm => [("vcodec", "libvpx-vp9"), ("acodec", "libopus"), ("f", "webm")]
    | .gif => []
    | .m4a => [("acodec", "aac")]
    | .wav => [("acodec", "pcm_s16le")]
    | .mp3 => [("acodec", "libmp3lame")]

/-- Arguments of `Cutter.clip` (with `output_dir` already defaulted and the
source path resolved; `stop` renders the keyword `end`). -/
structure ClipArgs where
  sourceStem : String
  sourcePath : String
  start : ℚ
  stop : ℚ
  fmt : Format
  outputDir : String
  overwrite : Bool
  allowNoAudio : Bool

/-- `Cutter.clip` (lines 104–167 with `_create_video_clip` / `_create_gif`
inlined at their call sites).  Stage order follows the source: format
validation, output directory creation, the overwrite check, then `source_hash`
and `created_at` (lines 142–143), then for GIF the two-pass palette engine
pipeline with no audio probe, and otherwise `_create_video_clip` — probe
(policy gate), then command assembly including a second raw `ffmpeg.probe`
(line 199, outside any `try`: a raising probe escapes as `ffmpeg.Error`
here), then the subprocess — and finally the artifact record append. -/
def clip (w : CutWorld) (a : ClipArgs) : CutResult ClipSpec :=
  if a.fmt ∈ SUPPORTED_VIDEO_FORMATS then
    let outputPath := get_output_path a.sourceStem a.start a.stop a.fmt a.outputDir
    if outputPath ∈ w.files ∧ a.overwrite = false then
      { trace := [.validateFormat, .mkdirOutput, .checkOverwrite]
        outcome := .error (.fileAlreadyExists outputPath)
        world := w }
    else
      let spec : ClipSpec :=
        { artifact_path := outputPath
          start := a.start
          stop := a.stop
          format := a.fmt.ext
          ffmpeg_params := get_output_kwargs w.isMacos a.fmt
          derived_from := a.sourcePath
          source_hash := w.sourceHash
          created_at := w.now }
      let preTrace := [Step.validateFormat, .mkdirOutput, .checkOverwrite, .hashTimestamp]
      if a.fmt = .gif then
        if w.engineOk then
          { trace := preTrace ++ [.invokeEngine false, .appendRecord]
            outcome := .ok spec
            world := { w with files := outputPath :: w.files
                              artifacts := w.artifacts ++ [.clipRec spec] } }
        else
          { trace := preTrace ++ [.invokeEngine false]
            outcome := .error .ffmpegError
            world := w }
      else
        let hasAudio := probe_audio w
        if hasAudio = false ∧ a.allowNoAudio = false then
          { trace := preTrace ++ [.probeAudio]
            outcome := .error (.noAudioStream a.sourcePath)
            world := w }
        else
          if w.probeOutcome = none then
            { trace := preTrace ++ [.probeAudio, .invokeEngine hasAudio]
              outcome := .error .rawFfmpegError
              world := w }
          else
            if w.engineOk then
              { trace := preTrace ++ [.probeAudio, .invokeEngine hasAudio, .appendRecord]
                outcome := .ok spec
                world := { w with files := outputPath :: w.files
                                  artifacts := w.artifacts ++ [.clipRec spec] } }
            else
              { trace := preTrace ++ [.probeAudio, .invokeEngine hasAudio]
                outcome := .error .ffmpegError
                world := w }
  else
    { trace := [.validateFormat], outcome := .error .unsupportedFormat, world := w }

/-- The `ClipSpec` a successful `clip w a` constructs. -/
def clipSpecOf (w : CutWorld) (a : ClipArgs) : ClipSpec :=
  { artifact_path := get_output_path a.sourceStem a.start a.stop a.fmt a.outputDir
    start := a.start
    stop := a.stop
    format := a.fmt.ext
    ffmpeg_params := get_output_kwargs w.isMacos a.fmt
    derived_from := a.sourcePath
    source_hash := w.sourceHash
    created_at := w.now }

/-- The world after a successful `clip w a`: the output file exists and one
record has been appended to the artifact log. -/
def clipSuccessWorld (w : CutWorld) (a : ClipArgs) : CutWorld :=
  { w with files := get_output_path a.sourceStem a.start a.stop a.fmt a.outputDir :: w.files
           artifacts := w.artifacts ++ [.clipRec (clipSpecOf w a)] }

/-- Arguments of `Cutter.audio`. -/
structure AudioArgs where
  sourceStem : String
  sourcePath : String
  start : ℚ
  stop : ℚ
  fmt : Format
  outputDir : String
  overwrite : Bool

/-- `Cutter.audio` (lines 262–323 with `_create_audio_clip` inlined):
format validation, directory creation, overwrite check, then the audio
probe as an unconditional gate (line 298), then hash and timestamp, the
engine, and the artifact record append. -/
def audio (w : CutWorld) (a : AudioArgs) : CutResult AudioSpec :=
  if a.fmt ∈ SUPPORTED_AUDIO_FORMATS then
    let outputPath := get_output_path a.sourceStem a.start a.stop a.fmt a.outputDir
    if outputPath ∈ w.files ∧ a.overwrite = false then
      { trace := [.validateFormat, .mkdirOutput, .checkOverwrite]
        outcome := .error (.fileAlreadyExists outputPath)
        world := w }
    else
      if probe_audio w = false then
        { trace := [.validateFormat, .mkdirOutput, .checkOverwrite, .probeAudio]
          outcome := .error (.noAudioStream a.sourcePath)
          world := w }
      else
        let spec : AudioSpec :=
          { artifact_path := outputPath
            start := a.start
            stop := a.stop
            format := a.fmt.ext
            ffmpeg_params := get_output_kwargs w.isMacos a.fmt
            derived_from := a.sourcePath
            source_hash := w.sourceHash
            created_at := w.now }
        let preTrace := [Step.validateFormat, .mkdirOutput, .checkOverwrite, .probeAudio,
          .hashTimestamp]
        if w.engineOk then
          { trace := preTrace ++ [.invokeEngine true, .appendRecord]
            outcome := .ok spec
            world := { w with files := outputPath :: w.files
                              artifacts := w.artifacts ++ [.audioRec spec] } }
        else
          { trace := preTrace ++ [.invokeEngine true]
            outcome := .error .ffmpegError
            world := w }
  else
    { trace := [.validateFormat], outcome := .error .unsupportedFormat, world := w }

/-- The `AudioSpec` a successful `audio w a` constructs. -/
def audioSpecOf (w : CutWorld) (a : AudioArgs) : AudioSpec :=
  { artifact_path := get_output_path a.sourceStem a.start a.stop a.fmt a.outputDir
    start := a.start
    stop := a.stop
    format := a.fmt.ext
    ffmpeg_params := get_output_kwargs w.isMacos a.fmt
    derived_from := a.sourcePath
    source_hash := w.sourceHash
    created_at := w.now }

/-- The world after a successful `audio w a`. -/
def audioSuccessWorld (w : CutWorld) (a : AudioArgs) : CutWorld :=
  { w with files := get_output_path a.sourceStem a.start a.stop a.fmt a.outputDir :: w.files
           artifacts := w.artifacts ++ [.audioRec (audioSpecOf w a)] }

/-! ### Concrete test fixtures used by the theorems below -/

/-- A fresh cutter environment: no existing files, a probe that succeeds and
reports an audio stream, a working engine, an empty artifact log. -/
def testWorld : CutWorld :=
  { files := []
    probeOutcome := some true
    engineOk := true
    sourceHash := "deadbeef"
    now := "2024-01-01T00:00:00"
    isMacos := false
    artifacts := [] }

/-- A plain mp4 clip request. -/
def testClipArgs : ClipArgs :=
  { sourceStem := "video"
    sourcePath := "downloads/alias1/video.mp4"
    start := 1
    stop := 2
    fmt := .mp4
    outputDir := "clips"
    overwrite := false
    allowNoAudio := false }

/-- A plain m4a audio request. -/
def testAudioArgs : AudioArgs :=
  { sourceStem := "video"
    sourcePath := "downloads/alias1/video.mp4"
    start := 1
    stop := 2
    fmt := .m4a
    outputDir := "audio"
    overwrite := false }

/-- The manifest of `alias1` in the spec's `list_downloads` example. -/
def testSpec1 : DownloadSpec :=
  { source_url := "https://example.com/w1"
    video_id := "id1"
    alias_ := "alias1"
    downloaded_files := [{ path := "downloads/alias1/v1.mp4", ext := "mp4", filesize := 10 }]
    yt_dlp_opts := [("format", "best")]
    created_at := "2024-01-01T00:00:00"
    title := "T1"
    duration := 5 }

/-- The manifest of `alias2` in the spec's `list_downloads` example. -/
def testSpec2 : DownloadSpec :=
  { source_url := "https://example.com/w2"
    video_id := "id2"
    alias_ := "alias2"
    downloaded_files := [{ path := "downloads/alias2/v2.mp4", ext := "mp4", filesize := 20 }]
    yt_dlp_opts := [("format", "best")]
    created_at := "2024-01-02T00:00:00"
    title := "T2"
    duration := 6 }

/-- The spec's example downloads directory: two valid manifests plus a stray
`alias3/not-a-manifest.json` with missing required fields. -/
def exampleDownloads : List DirEntry :=
  [{ name := "alias1", files := [("manifest.json", .valid testSpec1)] },
   { name := "alias2", files := [("manifest.json", .valid testSpec2)] },
   { name := "alias3", files := [("not-a-manifest.json", .malformed)] }]

/-- A downloads directory whose second alias has a malformed `manifest.json`
(the file that the `*/manifest.json` glob does match). -/
def badDownloads : List DirEntry :=
  [{ name := "alias1", files := [("manifest.json", .valid testSpec1)] },
   { name := "bad", files := [("manifest.json", .malformed)] }]

/-- A manifest whose recorded download no longer exists on disk. -/
def staleSpec : DownloadSpec :=
  { source_url := "https://example.com/w1"
    video_id := "id1"
    alias_ := "alias1"
    downloaded_files := [{ path := "downloads/alias1/gone.mp4", ext := "mp4", filesize := 3 }]
    yt_dlp_opts := []
    created_at := "2024-01-01T00:00:00"
    title := "T1"
    duration := 5 }

/-- Downloads directory holding only the stale manifest. -/
def staleDownloads : List DirEntry :=
  [{ name := "alias1", files := [("manifest.json", .valid staleSpec)] }]

/-- A disk on which the only existing path is the literal string `alias1` —
none of the stale manifest's recorded files exist. -/
def stalePathExists : String → Bool := fun p => p == "alias1"

/-- A disk on which exactly `testSpec1`'s recorded file exists. -/
def livePathExists : String → Bool := fun p => p == "downloads/alias1/v1.mp4"

/-! ### Auxiliary notions used only by the proofs -/

/-- The ten decimal digit characters. -/
def digitChars : List Char := ['0', '1', '2', '3', '4', '5', '6', '7', '8', '9']

/-- A character list made of decimal digits only. -/
def DigitsOnly (l : List Char) : Prop := ∀ c ∈ l, c ∈ digitChars

set_option maxRecDepth 4000

/-! ## Infrastructure lemmas: digit rendering and reparsing -/

theorem digitChar_mem_digitChars : ∀ d, d < 10 → Nat.digitChar d ∈ digitChars := by decide

theorem digitVal_digitChar : ∀ d, d < 10 → digitVal (Nat.digitChar d) = d := by decide

theorem digitChars_isDigit : ∀ c ∈ digitChars, c.isDigit = true := by decide

theorem digitChars_not_space : ∀ c ∈ digitChars, pySpace c = false := by decide

theorem digitChars_ne : ∀ c ∈ digitChars,
    c ≠ '+' ∧ c ≠ '-' ∧ c ≠ ':' ∧ c ≠ '.' := by decide

theorem digitsOnly_nil : DigitsOnly [] := by intro c hc; cases hc

theorem digitsOnly_append {a b : List Char} (ha : DigitsOnly a) (hb : DigitsOnly b) :
    DigitsOnly (a ++ b) := by
  intro c hc
  rcases List.mem_append.1 hc with h | h
  · exact ha c h
  · exact hb c h

theorem digitsOnly_replicate_zero (k : Nat) : DigitsOnly (List.replicate k '0') := by
  intro c hc
  rw [List.eq_of_mem_replicate hc]
  decide

theorem digitsOnly_renderNat (n : Nat) : DigitsOnly (renderNat n) := by
  unfold renderNat
  split
  · intro c hc
    simp only [List.mem_singleton] at hc
    subst hc; decide
  · intro c hc
    rw [List.mem_reverse] at hc
    -- every character emitted by `natDigitsRev` is `Nat.digitChar (_ % 10)`
    have main : ∀ fuel m, ∀ c ∈ natDigitsRev fuel m, c ∈ digitChars := by
      intro fuel
      induction fuel with
      | zero => intro m c hc; cases hc
      | succ fuel ih =>
        intro m c hc
        unfold natDigitsRev at hc
        by_cases hm : m = 0
        · simp [hm] at hc
        · rw [if_neg hm] at hc
          rcases List.mem_cons.1 hc with h | h
          · subst h
            exact digitChar_mem_digitChars _ (Nat.mod_lt _ (by norm_num))
          · exact ih (m / 10) c (by simpa using h)
    exact main _ _ c hc

theorem digitsOnly_padZero {l : List Char} (h : DigitsOnly l) (w : Nat) :
    DigitsOnly (padZero w l) :=
  digitsOnly_append (digitsOnly_replicate_zero _) h

theorem natOfDigits_from (l : List Char) : ∀ acc : Nat,
    l.foldl (fun a c => 10 * a + digitVal c) acc = acc * 10 ^ l.length + natOfDigits l := by
  induction l with
  | nil => intro acc; simp [natOfDigits]
  | cons c t ih =>
    intro acc
    have hc : natOfDigits (c :: t) = digitVal c * 10 ^ t.length + natOfDigits t := by
      conv_lhs => rw [natOfDigits, List.foldl_cons]
      rw [ih (10 * 0 + digitVal c)]
      ring
    rw [List.foldl_cons, ih (10 * acc + digitVal c), hc, List.length_cons]
    ring

theorem natOfDigits_append (a b : List Char) :
    natOfDigits (a ++ b) = natOfDigits a * 10 ^ b.length + natOfDigits b := by
  unfold natOfDigits
  rw [List.foldl_append]
  exact natOfDigits_from b _

theorem natOfDigits_replicate_zero (k : Nat) : natOfDigits (List.replicate k '0') = 0 := by
  induction k with
  | zero => rfl
  | succ k ih =>
    rw [List.replicate_succ]
    unfold natOfDigits at ih ⊢
    rw [List.foldl_cons]
    simpa using ih

theorem natOfDigits_padZero (w : Nat) (l : List Char) :
    natOfDigits (padZero w l) = natOfDigits l := by
  unfold padZero
  rw [natOfDigits_append, natOfDigits_replicate_zero]
  ring

theorem natOfDigits_reverse_map (L : List Nat) (hL : ∀ d ∈ L, d < 10) :
    natOfDigits ((L.map Nat.digitChar).reverse) = Nat.ofDigits 10 L := by
  induction L with
  | nil => simp [natOfDigits, Nat.ofDigits_nil]
  | cons d T ih =>
    rw [List.map_cons, List.reverse_cons, natOfDigits_append]
    have hd : natOfDigits [Nat.digitChar d] = d := by
      show 10 * 0 + digitVal (Nat.digitChar d) = d
      rw [digitVal_digitChar d (hL d (List.mem_cons_self d T))]
      ring
    rw [hd, ih (fun e he => hL e (List.mem_cons_of_mem d he)), Nat.ofDigits_cons,
      List.length_singleton]
    ring

theorem natDigitsRev_eq_digits (n : Nat) : ∀ fuel, n < fuel →
    natDigitsRev fuel n = (Nat.digits 10 n).map Nat.digitChar := by
  induction n using Nat.strong_induction_on with
  | _ n ih =>
    intro fuel hfuel
    match fuel, hfuel with
    | f + 1, hfuel =>
      unfold natDigitsRev
      by_cases hn : n = 0
      · simp [hn]
      · rw [if_neg hn, Nat.digits_def' (by norm_num : 1 < 10) (Nat.pos_of_ne_zero hn),
          List.map_cons]
        have h1 : n / 10 < n := Nat.div_lt_self (Nat.pos_of_ne_zero hn) (by norm_num)
        rw [ih (n / 10) h1 f (by omega)]

theorem natOfDigits_renderNat (n : Nat) : natOfDigits (renderNat n) = n := by
  unfold renderNat
  by_cases hn : n = 0
  · simp [hn]; decide
  · rw [if_neg hn, natDigitsRev_eq_digits n (n + 1) (Nat.lt_succ_self n),
      natOfDigits_reverse_map _ (fun d hd => Nat.digits_lt_base (by norm_num) hd),
      Nat.ofDigits_digits]

theorem renderNat_ne_nil (n : Nat) : renderNat n ≠ [] := by
  unfold renderNat
  by_cases hn : n = 0
  · simp [hn]
  · rw [if_neg hn]
    unfold natDigitsRev
    rw [if_neg hn]
    simp

theorem padZero_ne_nil {l : List Char} (h : l ≠ []) (w : Nat) : padZero w l ≠ [] := by
  unfold padZero
  intro hc
  rcases List.append_eq_nil.1 hc with ⟨-, h2⟩
  exact h h2

theorem padZero_length (w : Nat) (l : List Char) :
    (padZero w l).length = max w l.length := by
  unfold padZero
  rw [List.length_append, List.length_replicate]
  omega

/-! ## Infrastructure lemmas: `strip`/`split`/`int`/`float` on structured input -/

theorem dropWhile_eq_self_of_no_space {l : List Char}
    (h : ∀ c ∈ l, pySpace c = false) : l.dropWhile pySpace = l := by
  cases l with
  | nil => rfl
  | cons c r =>
    rw [List.dropWhile_cons, h c (List.mem_cons_self c r)]
    simp

theorem pyStrip_eq_self {l : List Char} (h : ∀ c ∈ l, pySpace c = false) :
    pyStrip l = l := by
  unfold pyStrip dropRightWhile
  rw [dropWhile_eq_self_of_no_space h,
    dropWhile_eq_self_of_no_space (fun c hc => h c (List.mem_reverse.1 hc)),
    List.reverse_reverse]

theorem takeSign_eq_self {l : List Char}
    (h : ∀ c, l.head? = some c → c ≠ '+' ∧ c ≠ '-') : takeSign l = (1, l) := by
  cases l with
  | nil => rfl
  | cons c r =>
    obtain ⟨h1, h2⟩ := h c rfl
    show (if c = '+' then ((1 : Int), r) else if c = '-' then (-1, r) else (1, c :: r)) =
      (1, c :: r)
    rw [if_neg h1, if_neg h2]

theorem splitOnChar_not_mem {sep : Char} {l : List Char} (h : sep ∉ l) :
    splitOnChar sep l = [l] := by
  induction l with
  | nil => rfl
  | cons c r ih =>
    have hc : ¬c = sep := fun hc => h (by rw [hc]; exact List.mem_cons_self sep r)
    simp only [splitOnChar, if_neg hc, ih (fun hm => h (List.mem_cons_of_mem c hm))]

theorem splitOnChar_append {sep : Char} {a : List Char} (b : List Char) (h : sep ∉ a) :
    splitOnChar sep (a ++ sep :: b) = a :: splitOnChar sep b := by
  induction a with
  | nil =>
    show splitOnChar sep (sep :: b) = [] :: splitOnChar sep b
    simp [splitOnChar]
  | cons c r ih =>
    show splitOnChar sep (c :: (r ++ sep :: b)) = (c :: r) :: splitOnChar sep b
    have hc : ¬c = sep := fun hc => h (by rw [hc]; exact List.mem_cons_self sep r)
    simp only [splitOnChar, if_neg hc, ih (fun hm => h (List.mem_cons_of_mem c hm))]

theorem digitsOnly_head_not_sign {l : List Char} (h : DigitsOnly l) :
    ∀ c, l.head? = some c → c ≠ '+' ∧ c ≠ '-' := by
  intro c hc
  have hm : c ∈ l := by
    cases l with
    | nil => cases hc
    | cons d r => cases hc; exact List.mem_cons_self _ _
  obtain ⟨h1, h2, -, -⟩ := digitChars_ne c (h c hm)
  exact ⟨h1, h2⟩

theorem pyInt_digits {l : List Char} (hne : l ≠ []) (h : DigitsOnly l) :
    pyInt l = some ((natOfDigits l : Int)) := by
  unfold pyInt
  simp only [pyStrip_eq_self (fun c hc => digitChars_not_space c (h c hc)),
    takeSign_eq_self (digitsOnly_head_not_sign h)]
  rw [if_pos ⟨hne, List.all_eq_true.2 (fun c hc => digitChars_isDigit c (h c hc))⟩]
  rw [one_mul]

theorem pyFloat_none_structured {A B : List Char}
    (hsp : ∀ c ∈ A ++ '.' :: B, pySpace c = false)
    (hhead : ∀ c, (A ++ '.' :: B).head? = some c → c ≠ '+' ∧ c ≠ '-')
    (hdotA : '.' ∉ A) (hdotB : '.' ∉ B)
    (hbad : ':' ∈ A) :
    pyFloat (A ++ '.' :: B) = none := by
  unfold pyFloat
  simp only [pyStrip_eq_self hsp, takeSign_eq_self hhead]
  rw [splitOnChar_append B hdotA, splitOnChar_not_mem hdotB]
  have hA : A.all Char.isDigit = false :=
    List.all_eq_false.2 ⟨':', hbad, by decide⟩
  simp only []
  rw [if_neg]
  rintro ⟨-, h2, -⟩
  rw [hA] at h2
  cases h2

theorem parseTimeL_hms {hh mm ss ms : List Char}
    (d1 : DigitsOnly hh) (d2 : DigitsOnly mm) (d3 : DigitsOnly ss) (d4 : DigitsOnly ms)
    (n1 : hh ≠ []) (n2 : mm ≠ []) (n3 : ss ≠ []) (n4 : ms ≠ []) :
    parseTimeL (hh ++ ':' :: (mm ++ ':' :: (ss ++ '.' :: ms))) =
      .ok ((natOfDigits hh : ℚ) * 3600 + (natOfDigits mm : ℚ) * 60 + (natOfDigits ss : ℚ) +
        (natOfDigits ms : ℚ) / 1000) := by
  have memR : ∀ c ∈ hh ++ ':' :: (mm ++ ':' :: (ss ++ '.' :: ms)),
      c ∈ digitChars ∨ c = ':' ∨ c = '.' := by
    intro c hc
    have hd : c ∈ hh ∨ c = ':' ∨ c ∈ mm ∨ c = ':' ∨ c ∈ ss ∨ c = '.' ∨ c ∈ ms := by
      simpa [List.mem_append, List.mem_cons, or_assoc] using hc
    rcases hd with h | h | h | h | h | h | h
    · exact Or.inl (d1 c h)
    · exact Or.inr (Or.inl h)
    · exact Or.inl (d2 c h)
    · exact Or.inr (Or.inl h)
    · exact Or.inl (d3 c h)
    · exact Or.inr (Or.inr h)
    · exact Or.inl (d4 c h)
  have hspace : ∀ c ∈ hh ++ ':' :: (mm ++ ':' :: (ss ++ '.' :: ms)), pySpace c = false := by
    intro c hc
    rcases memR c hc with h | h | h
    · exact digitChars_not_space c h
    · rw [h]; decide
    · rw [h]; decide
  have hhead : ∀ c, (hh ++ ':' :: (mm ++ ':' :: (ss ++ '.' :: ms))).head? = some c →
      c ≠ '+' ∧ c ≠ '-' := by
    cases hh with
    | nil => exact absurd rfl n1
    | cons d t =>
      intro c hc
      simp only [List.cons_append, List.head?_cons, Option.some.injEq] at hc
      obtain ⟨e1, e2, -, -⟩ := digitChars_ne d (d1 d (List.mem_cons_self d t))
      rw [← hc]
      exact ⟨e1, e2⟩
  have hform : hh ++ ':' :: (mm ++ ':' :: (ss ++ '.' :: ms)) =
      (hh ++ ':' :: (mm ++ ':' :: ss)) ++ '.' :: ms := by
    simp [List.append_assoc, List.cons_append]
  have hdotA : '.' ∉ hh ++ ':' :: (mm ++ ':' :: ss) := by
    intro hmem
    have hd : ('.' : Char) ∈ hh ∨ ('.' : Char) = ':' ∨ ('.' : Char) ∈ mm ∨
        ('.' : Char) = ':' ∨ ('.' : Char) ∈ ss := by
      simpa [List.mem_append, List.mem_cons, or_assoc] using hmem
    rcases hd with h | h | h | h | h
    · exact absurd (d1 _ h) (by decide)
    · exact absurd h (by decide)
    · exact absurd (d2 _ h) (by decide)
    · exact absurd h (by decide)
    · exact absurd (d3 _ h) (by decide)
  have hdotB : '.' ∉ ms := fun hmem => absurd (d4 _ hmem) (by decide)
  have hbad : ':' ∈ hh ++ ':' :: (mm ++ ':' :: ss) :=
    List.mem_append_right _ (List.mem_cons_self _ _)
  have hfloat : pyFloat (hh ++ ':' :: (mm ++ ':' :: (ss ++ '.' :: ms))) = none := by
    rw [hform]
    refine pyFloat_none_structured ?_ ?_ hdotA hdotB hbad
    · rw [← hform]; exact hspace
    · rw [← hform]; exact hhead
  have hcolon1 : ':' ∉ hh := fun hmem => absurd (d1 _ hmem) (by decide)
  have hcolon2 : ':' ∉ mm := fun hmem => absurd (d2 _ hmem) (by decide)
  have hcolon3 : ':' ∉ ss ++ '.' :: ms := by
    intro hmem
    rcases List.mem_append.1 hmem with h1 | h1
    · exact absurd (d3 _ h1) (by decide)
    · rcases List.mem_cons.1 h1 with h2 | h2
      · exact absurd h2 (by decide)
      · exact absurd (d4 _ h2) (by decide)
  have hdotSS : '.' ∉ ss := fun hmem => absurd (d3 _ hmem) (by decide)
  have hsplit : splitOnChar ':' (hh ++ ':' :: (mm ++ ':' :: (ss ++ '.' :: ms))) =
      [hh, mm, ss ++ '.' :: ms] := by
    rw [splitOnChar_append _ hcolon1, splitOnChar_append _ hcolon2,
      splitOnChar_not_mem hcolon3]
  have hsp : splitOnChar '.' (ss ++ '.' :: ms) = [ss, ms] := by
    rw [splitOnChar_append _ hdotSS, splitOnChar_not_mem hdotB]
  unfold parseTimeL
  rw [hfloat]
  simp only []
  rw [pyStrip_eq_self hspace, hsplit]
  simp only [hsp, List.headD_cons, List.length_cons, List.length_nil, List.getD,
    List.get?]
  rw [pyInt_digits n1 d1, pyInt_digits n2 d2, pyInt_digits n3 d3]
  norm_num
  rw [pyInt_digits n4 d4]
  simp only []
  push_cast
  ring_nf

/-! ## Infrastructure lemmas: `format_time` arithmetic -/

theorem qfloor_eq (x : ℚ) : qfloor x = ⌊x⌋ := by
  rw [qfloor, Rat.floor_def]

theorem pyMod_eq (a b : ℚ) : pyMod a b = a - b * ⌊a / b⌋ := by
  rw [pyMod, qfloor_eq]

theorem pyMod_eq_fract (a : ℚ) {b : ℚ} (hb : b ≠ 0) :
    pyMod a b = b * Int.fract (a / b) := by
  rw [pyMod_eq, Int.fract, mul_sub]
  congr 1
  field_simp

theorem pyMod_nonneg (a : ℚ) {b : ℚ} (hb : 0 < b) : 0 ≤ pyMod a b := by
  rw [pyMod_eq_fract a hb.ne.symm]
  exact mul_nonneg hb.le (Int.fract_nonneg _)

theorem pyMod_lt (a : ℚ) {b : ℚ} (hb : 0 < b) : pyMod a b < b := by
  rw [pyMod_eq_fract a hb.ne.symm]
  calc b * Int.fract (a / b) < b * 1 := by
        exact mul_lt_mul_of_pos_left (Int.fract_lt_one _) hb
    _ = b := mul_one b

theorem roundEven_cases (x : ℚ) : roundEven x = ⌊x⌋ ∨ roundEven x = ⌊x⌋ + 1 := by
  rw [roundEven, qfloor_eq]
  split
  · exact Or.inl rfl
  · split
    · exact Or.inr rfl
    · split
      · exact Or.inl rfl
      · exact Or.inr rfl

theorem roundEven_nonneg {x : ℚ} (hx : 0 ≤ x) : 0 ≤ roundEven x := by
  have h0 : (0 : ℤ) ≤ ⌊x⌋ := Int.floor_nonneg.2 hx
  rcases roundEven_cases x with h | h <;> omega

theorem abs_roundEven_sub (x : ℚ) : |(roundEven x : ℚ) - x| ≤ 1 / 2 := by
  have hf1 : (⌊x⌋ : ℚ) ≤ x := Int.floor_le x
  have hf2 : x < ⌊x⌋ + 1 := Int.lt_floor_add_one x
  rw [roundEven, qfloor_eq]
  split
  · next h => rw [abs_sub_comm, abs_of_nonneg (by linarith)]; linarith
  · split
    · next h =>
      push_cast
      rw [abs_of_nonneg (by linarith)]
      linarith
    · next h1 h2 =>
      have he : x - ⌊x⌋ = 1 / 2 := le_antisymm (not_lt.1 h2) (not_lt.1 h1)
      split
      · rw [abs_sub_comm, abs_of_nonneg (by linarith)]; linarith
      · push_cast
        rw [abs_of_nonneg (by linarith)]
        linarith

theorem roundEven_le_floor_add_one (x : ℚ) : roundEven x ≤ ⌊x⌋ + 1 := by
  rcases roundEven_cases x with h | h <;> omega

theorem hms_decompose {x : ℚ} (hx : 0 ≤ x) :
    ((qfloor (x / 3600)).toNat : ℚ) * 3600 + ((qfloor (pyMod x 3600 / 60)).toNat : ℚ) * 60 +
      pyMod x 60 = x := by
  have h1 : (0 : ℚ) ≤ x / 3600 := by positivity
  have hH : (0 : ℤ) ≤ qfloor (x / 3600) := by
    rw [qfloor_eq]; exact Int.floor_nonneg.2 h1
  have hr1 : (0 : ℚ) ≤ pyMod x 3600 := pyMod_nonneg x (by norm_num)
  have hM : (0 : ℤ) ≤ qfloor (pyMod x 3600 / 60) := by
    rw [qfloor_eq]
    exact Int.floor_nonneg.2 (by positivity)
  have cH : ((qfloor (x / 3600)).toNat : ℚ) = ((qfloor (x / 3600) : ℤ) : ℚ) := by
    exact_mod_cast congrArg (fun z : ℤ => (z : ℚ)) (Int.toNat_of_nonneg hH)
  have cM : ((qfloor (pyMod x 3600 / 60)).toNat : ℚ) =
      ((qfloor (pyMod x 3600 / 60) : ℤ) : ℚ) := by
    exact_mod_cast congrArg (fun z : ℤ => (z : ℚ)) (Int.toNat_of_nonneg hM)
  have key : ⌊pyMod x 3600 / 60⌋ = ⌊x / 60⌋ - 60 * ⌊x / 3600⌋ := by
    have harg : pyMod x 3600 / 60 = x / 60 - ((60 * ⌊x / 3600⌋ : ℤ) : ℚ) := by
      rw [pyMod_eq]
      push_cast
      ring
    rw [harg, Int.floor_sub_int]
  rw [cH, cM, qfloor_eq, qfloor_eq, key, pyMod_eq]
  push_cast
  ring

theorem renderNat_length_le {n k : Nat} (hk : 1 ≤ k) (h : n < 10 ^ k) :
    (renderNat n).length ≤ k := by
  unfold renderNat
  by_cases hn : n = 0
  · simp [hn]; omega
  · rw [if_neg hn, List.length_reverse,
      natDigitsRev_eq_digits n (n + 1) (Nat.lt_succ_self n), List.length_map,
      Nat.digits_len 10 n (by norm_num) hn]
    have hlog : Nat.log 10 n < k := Nat.log_lt_of_lt_pow hn h
    omega

theorem format_time_structure (x : ℚ) : format_time x = String.mk (
    padZero 2 (renderNat (qfloor (x / 3600)).toNat) ++ ':' ::
      (padZero 2 (renderNat (qfloor (pyMod x 3600 / 60)).toNat) ++ ':' ::
        (padZero 2 (renderNat ((roundEven (pyMod x 60 * 1000)).toNat / 1000)) ++
          '.' :: padZero 3 (renderNat ((roundEven (pyMod x 60 * 1000)).toNat % 1000))))) :=
  rfl

theorem parse_format (x : ℚ) :
    parse_time (format_time x) = .ok (
      ((qfloor (x / 3600)).toNat : ℚ) * 3600 +
      ((qfloor (pyMod x 3600 / 60)).toNat : ℚ) * 60 +
      ((roundEven (pyMod x 60 * 1000)).toNat : ℚ) / 1000) := by
  rw [format_time_structure]
  show parseTimeL _ = _
  rw [parseTimeL_hms (digitsOnly_padZero (digitsOnly_renderNat _) 2)
      (digitsOnly_padZero (digitsOnly_renderNat _) 2)
      (digitsOnly_padZero (digitsOnly_renderNat _) 2)
      (digitsOnly_padZero (digitsOnly_renderNat _) 3)
      (padZero_ne_nil (renderNat_ne_nil _) 2)
      (padZero_ne_nil (renderNat_ne_nil _) 2)
      (padZero_ne_nil (renderNat_ne_nil _) 2)
      (padZero_ne_nil (renderNat_ne_nil _) 3)]
  simp only [natOfDigits_padZero, natOfDigits_renderNat]
  congr 1
  have hdm := Nat.div_add_mod (roundEven (pyMod x 60 * 1000)).toNat 1000
  have hcast : 1000 * (((roundEven (pyMod x 60 * 1000)).toNat / 1000 : ℕ) : ℚ) +
      (((roundEven (pyMod x 60 * 1000)).toNat % 1000 : ℕ) : ℚ) =
      ((roundEven (pyMod x 60 * 1000)).toNat : ℚ) := by
    exact_mod_cast congrArg (fun n : ℕ => (n : ℚ)) hdm
  field_simp
  linarith

theorem parse_format_roundtrip {x : ℚ} (hx : 0 ≤ x) :
    ∃ v, parse_time (format_time x) = .ok v ∧ |v - x| ≤ 1 / 2000 := by
  refine ⟨_, parse_format x, ?_⟩
  have hs0 : 0 ≤ pyMod x 60 := pyMod_nonneg x (by norm_num)
  have hms0 : 0 ≤ roundEven (pyMod x 60 * 1000) := roundEven_nonneg (by positivity)
  have hcast : ((roundEven (pyMod x 60 * 1000)).toNat : ℚ) =
      ((roundEven (pyMod x 60 * 1000) : ℤ) : ℚ) := by
    exact_mod_cast congrArg (fun z : ℤ => (z : ℚ)) (Int.toNat_of_nonneg hms0)
  have hdec := hms_decompose hx
  have habs := abs_roundEven_sub (pyMod x 60 * 1000)
  have hv : ((qfloor (x / 3600)).toNat : ℚ) * 3600 +
      ((qfloor (pyMod x 3600 / 60)).toNat : ℚ) * 60 +
      ((roundEven (pyMod x 60 * 1000)).toNat : ℚ) / 1000 - x =
      (((roundEven (pyMod x 60 * 1000) : ℤ) : ℚ) - pyMod x 60 * 1000) / 1000 := by
    rw [hcast]
    linarith [hdec]
  rw [hv, abs_div, abs_of_pos (by norm_num : (0 : ℚ) < 1000)]
  calc |((roundEven (pyMod x 60 * 1000) : ℤ) : ℚ) - pyMod x 60 * 1000| / 1000
      ≤ (1 / 2) / 1000 := by gcongr
    _ = 1 / 2000 := by norm_num

/-! ## Infrastructure lemmas: the cutter branches -/

theorem clip_not_supported {w : CutWorld} {a : ClipArgs}
    (h : a.fmt ∉ SUPPORTED_VIDEO_FORMATS) :
    clip w a = ⟨[.validateFormat], .error .unsupportedFormat, w⟩ := by
  simp only [clip]
  rw [if_neg h]

theorem clip_clash {w : CutWorld} {a : ClipArgs}
    (hf : a.fmt ∈ SUPPORTED_VIDEO_FORMATS)
    (hc : get_output_path a.sourceStem a.start a.stop a.fmt a.outputDir ∈ w.files ∧
      a.overwrite = false) :
    clip w a = ⟨[.validateFormat, .mkdirOutput, .checkOverwrite],
      .error (.fileAlreadyExists
        (get_output_path a.sourceStem a.start a.stop a.fmt a.outputDir)), w⟩ := by
  simp only [clip]
  rw [if_pos hf, if_pos hc]

theorem clip_gif_ok {w : CutWorld} {a : ClipArgs}
    (hf : a.fmt ∈ SUPPORTED_VIDEO_FORMATS)
    (hc : ¬(get_output_path a.sourceStem a.start a.stop a.fmt a.outputDir ∈ w.files ∧
      a.overwrite = false))
    (hg : a.fmt = .gif) (he : w.engineOk = true) :
    clip w a = ⟨[.validateFormat, .mkdirOutput, .checkOverwrite, .hashTimestamp,
      .invokeEngine false, .appendRecord], .ok (clipSpecOf w a), clipSuccessWorld w a⟩ := by
  simp only [clip]
  rw [if_pos hf, if_neg hc, if_pos hg, if_pos he]
  rfl

theorem clip_gif_engine_fail {w : CutWorld} {a : ClipArgs}
    (hf : a.fmt ∈ SUPPORTED_VIDEO_FORMATS)
    (hc : ¬(get_output_path a.sourceStem a.start a.stop a.fmt a.outputDir ∈ w.files ∧
      a.overwrite = false))
    (hg : a.fmt = .gif) (he : w.engineOk = false) :
    clip w a = ⟨[.validateFormat, .mkdirOutput, .checkOverwrite, .hashTimestamp,
      .invokeEngine false], .error .ffmpegError, w⟩ := by
  simp only [clip]
  rw [if_pos hf, if_neg hc, if_pos hg, if_neg (by simp [he])]
  rfl

theorem clip_no_audio {w : CutWorld} {a : ClipArgs}
    (hf : a.fmt ∈ SUPPORTED_VIDEO_FORMATS)
    (hc : ¬(get_output_path a.sourceStem a.start a.stop a.fmt a.outputDir ∈ w.files ∧
      a.overwrite = false))
    (hg : a.fmt ≠ .gif) (hp : probe_audio w = false) (ha : a.allowNoAudio = false) :
    clip w a = ⟨[.validateFormat, .mkdirOutput, .checkOverwrite, .hashTimestamp, .probeAudio],
      .error (.noAudioStream a.sourcePath), w⟩ := by
  simp only [clip]
  rw [if_pos hf, if_neg hc, if_neg hg, if_pos ⟨hp, ha⟩]
  rfl

theorem clip_probe_raise {w : CutWorld} {a : ClipArgs}
    (hf : a.fmt ∈ SUPPORTED_VIDEO_FORMATS)
    (hc : ¬(get_output_path a.sourceStem a.start a.stop a.fmt a.outputDir ∈ w.files ∧
      a.overwrite = false))
    (hg : a.fmt ≠ .gif) (hna : ¬(probe_audio w = false ∧ a.allowNoAudio = false))
    (hpn : w.probeOutcome = none) :
    clip w a = ⟨[.validateFormat, .mkdirOutput, .checkOverwrite, .hashTimestamp, .probeAudio,
      .invokeEngine (probe_audio w)], .error .rawFfmpegError, w⟩ := by
  simp only [clip]
  rw [if_pos hf, if_neg hc, if_neg hg, if_neg hna, if_pos hpn]
  rfl

theorem clip_engine_ok {w : CutWorld} {a : ClipArgs}
    (hf : a.fmt ∈ SUPPORTED_VIDEO_FORMATS)
    (hc : ¬(get_output_path a.sourceStem a.start a.stop a.fmt a.outputDir ∈ w.files ∧
      a.overwrite = false))
    (hg : a.fmt ≠ .gif) (hna : ¬(probe_audio w = false ∧ a.allowNoAudio = false))
    (hpn : w.probeOutcome ≠ none) (he : w.engineOk = true) :
    clip w a = ⟨[.validateFormat, .mkdirOutput, .checkOverwrite, .hashTimestamp, .probeAudio,
      .invokeEngine (probe_audio w), .appendRecord],
      .ok (clipSpecOf w a), clipSuccessWorld w a⟩ := by
  simp only [clip]
  rw [if_pos hf, if_neg hc, if_neg hg, if_neg hna, if_neg hpn, if_pos he]
  rfl

theorem clip_engine_fail {w : CutWorld} {a : ClipArgs}
    (hf : a.fmt ∈ SUPPORTED_VIDEO_FORMATS)
    (hc : ¬(get_output_path a.sourceStem a.start a.stop a.fmt a.outputDir ∈ w.files ∧
      a.overwrite = false))
    (hg : a.fmt ≠ .gif) (hna : ¬(probe_audio w = false ∧ a.allowNoAudio = false))
    (hpn : w.probeOutcome ≠ none) (he : w.engineOk = false) :
    clip w a = ⟨[.validateFormat, .mkdirOutput, .checkOverwrite, .hashTimestamp, .probeAudio,
      .invokeEngine (probe_audio w)], .error .ffmpegError, w⟩ := by
  simp only [clip]
  rw [if_pos hf, if_neg hc, if_neg hg, if_neg hna, if_neg hpn,
    if_neg (by simp [he])]
  rfl

theorem audio_not_supported {w : CutWorld} {aa : AudioArgs}
    (h : aa.fmt ∉ SUPPORTED_AUDIO_FORMATS) :
    audio w aa = ⟨[.validateFormat], .error .unsupportedFormat, w⟩ := by
  simp only [audio]
  rw [if_neg h]

theorem audio_clash {w : CutWorld} {aa : AudioArgs}
    (hf : aa.fmt ∈ SUPPORTED_AUDIO_FORMATS)
    (hc : get_output_path aa.sourceStem aa.start aa.stop aa.fmt aa.outputDir ∈ w.files ∧
      aa.overwrite = false) :
    audio w aa = ⟨[.validateFormat, .mkdirOutput, .checkOverwrite],
      .error (.fileAlreadyExists
        (get_output_path aa.sourceStem aa.start aa.stop aa.fmt aa.outputDir)), w⟩ := by
  simp only [audio]
  rw [if_pos hf, if_pos hc]

theorem audio_no_audio {w : CutWorld} {aa : AudioArgs}
    (hf : aa.fmt ∈ SUPPORTED_AUDIO_FORMATS)
    (hc : ¬(get_output_path aa.sourceStem aa.start aa.stop aa.fmt aa.outputDir ∈ w.files ∧
      aa.overwrite = false))
    (hp : probe_audio w = false) :
    audio w aa = ⟨[.validateFormat, .mkdirOutput, .checkOverwrite, .probeAudio],
      .error (.noAudioStream aa.sourcePath), w⟩ := by
  simp only [audio]
  rw [if_pos hf, if_neg hc, if_pos hp]

theorem audio_ok {w : CutWorld} {aa : AudioArgs}
    (hf : aa.fmt ∈ SUPPORTED_AUDIO_FORMATS)
    (hc : ¬(get_output_path aa.sourceStem aa.start aa.stop aa.fmt aa.outputDir ∈ w.files ∧
      aa.overwrite = false))
    (hp : probe_audio w = true) (he : w.engineOk = true) :
    audio w aa = ⟨[.validateFormat, .mkdirOutput, .checkOverwrite, .probeAudio, .hashTimestamp,
      .invokeEngine true, .appendRecord],
      .ok (audioSpecOf w aa), audioSuccessWorld w aa⟩ := by
  simp only [audio]
  rw [if_pos hf, if_neg hc, if_neg (by simp [hp]), if_pos he]
  rfl

theorem audio_engine_fail {w : CutWorld} {aa : AudioArgs}
    (hf : aa.fmt ∈ SUPPORTED_AUDIO_FORMATS)
    (hc : ¬(get_output_path aa.sourceStem aa.start aa.stop aa.fmt aa.outputDir ∈ w.files ∧
      aa.overwrite = false))
    (hp : probe_audio w = true) (he : w.engineOk = false) :
    audio w aa = ⟨[.validateFormat, .mkdirOutput, .checkOverwrite, .probeAudio, .hashTimestamp,
      .invokeEngine true], .error .ffmpegError, w⟩ := by
  simp only [audio]
  rw [if_pos hf, if_neg hc, if_neg (by simp [hp]),
    if_neg (by simp [he])]
  rfl

/-! ## Claim C1 — `parse_time` accepted shapes and values -/

/-- C1 counterexample: the claim says `parse_time "1:23.5"` yields `83.5`,
but the code reads the digits after the dot as an integer millisecond count:
`"1:23.5"` parses to `83.005` (`16601/200`), not `83.5` (`167/2`).  Moreover
the claim says every string outside the three shapes raises
`InvalidTimeFormat`, but `"1:2:3.4.5"` — a fourth shape, with two extra
dot-separated pieces — parses successfully to `3723.004` (`930751/250`),
the piece `"5"` being ignored. -/
theorem maker_c1_counterexample :
    parse_time "1:23.5" = .ok (16601 / 200) ∧
    (Except.ok ((16601 : ℚ) / 200) : Except MakerErr ℚ) ≠ .ok (167 / 2) ∧
    parse_time "1:2:3.4.5" = .ok (930751 / 250) := by
  refine ⟨?_, by with_unfolding_all decide, ?_⟩
  · have h : parse_time "1:23.5" =
        Except.ok ((((1 : Int) * Maker.natOfDigits ['1'] : Int) : ℚ) * 60 +
          (((1 : Int) * Maker.natOfDigits ['2', '3'] : Int) : ℚ) +
          (((1 : Int) * Maker.natOfDigits ['5'] : Int) : ℚ) / 1000) := by
      with_unfolding_all rfl
    have h1 : Maker.natOfDigits ['1'] = 1 := by decide
    have h2 : Maker.natOfDigits ['2', '3'] = 23 := by decide
    have h3 : Maker.natOfDigits ['5'] = 5 := by decide
    rw [h, h1, h2, h3]
    norm_num
  · have h : parse_time "1:2:3.4.5" =
        Except.ok ((((1 : Int) * Maker.natOfDigits ['1'] : Int) : ℚ) * 3600 +
          (((1 : Int) * Maker.natOfDigits ['2'] : Int) : ℚ) * 60 +
          (((1 : Int) * Maker.natOfDigits ['3'] : Int) : ℚ) +
          (((1 : Int) * Maker.natOfDigits ['4'] : Int) : ℚ) / 1000) := by
      with_unfolding_all rfl
    have h1 : Maker.natOfDigits ['1'] = 1 := by decide
    have h2 : Maker.natOfDigits ['2'] = 2 := by decide
    have h3 : Maker.natOfDigits ['3'] = 3 := by decide
    have h4 : Maker.natOfDigits ['4'] = 4 := by decide
    rw [h, h1, h2, h3, h4]
    norm_num

/-- C1 (amended): `parse_time` accepts a bare decimal number of seconds,
`MM:SS[.mmm]` and `HH:MM:SS[.mmm]`, where the digits after the dot are read
as an integer millisecond count — so `"83.5"` and `"00:01:23.500"` both
parse to `83.5` while `"1:23.5"` parses to `83.005`; a seconds field with
extra dot-separated pieces is accepted with the extra pieces ignored
(`"1:2:3.4.5"` parses to `3723.004`); malformed numeric sub-parts
(`"1:ab.5"`), a wrong number of colon-separated parts (`"1:2:3:4"`), the
empty string, and non-numeric text (`"xx"`) raise `InvalidTimeFormat`. -/
theorem maker_c1_parse_time_shapes :
    parse_time "83.5" = .ok (167 / 2) ∧
    parse_time "00:01:23.500" = .ok (167 / 2) ∧
    parse_time "1:23.5" = .ok (16601 / 200) ∧
    parse_time "1:2:3.4.5" = .ok (930751 / 250) ∧
    parse_time "1:ab.5" = .error (.invalidTimeFormat "1:ab.5".data) ∧
    parse_time "1:2:3:4" = .error (.invalidTimeFormat "1:2:3:4".data) ∧
    parse_time "" = .error (.invalidTimeFormat "".data) ∧
    parse_time "xx" = .error (.invalidTimeFormat "xx".data) := by
  refine ⟨by with_unfolding_all decide, by with_unfolding_all decide,
    maker_c1_counterexample.1, maker_c1_counterexample.2.2,
    by with_unfolding_all decide, by with_unfolding_all decide,
    by with_unfolding_all decide, by with_unfolding_all decide⟩

/-! ## Claim C6 — `format_time` rendering and the parse round trip -/

/-- C6: `format_time` renders a nonnegative seconds value as
`HH:MM:SS.mmm` — zero-padded hours and minutes, a zero-padded 2-digit
integer seconds part, exactly 3 decimal places — with
`format_time 83.5 = "00:01:23.500"`; and it is inverse to parsing within
millisecond rounding: `parse_time (format_time x)` succeeds with a value
within `1/2000` of `x` for every `0 ≤ x`. -/
theorem maker_c6_format_time :
    format_time (167 / 2) = "00:01:23.500" ∧
    (∀ x : ℚ, 0 ≤ x → ∃ si sf : ℕ, sf < 1000 ∧
      format_time x = String.mk (padZero 2 (renderNat (qfloor (x / 3600)).toNat) ++ ':' ::
        (padZero 2 (renderNat (qfloor (pyMod x 3600 / 60)).toNat) ++ ':' ::
          (padZero 2 (renderNat si) ++ '.' :: padZero 3 (renderNat sf)))) ∧
      (padZero 2 (renderNat si)).length = 2 ∧ (padZero 3 (renderNat sf)).length = 3) ∧
    (∀ x : ℚ, 0 ≤ x → ∃ v, parse_time (format_time x) = .ok v ∧ |v - x| ≤ 1 / 2000) := by
  refine ⟨by with_unfolding_all decide, ?_, fun x hx => parse_format_roundtrip hx⟩
  intro x hx
  set t := (roundEven (pyMod x 60 * 1000)).toNat with ht
  refine ⟨t / 1000, t % 1000, Nat.mod_lt _ (by norm_num), format_time_structure x, ?_, ?_⟩
  · -- the integer seconds part is at most 60, hence at most two digits wide
    have hs : pyMod x 60 < 60 := pyMod_lt x (by norm_num)
    have hfl : ⌊pyMod x 60 * 1000⌋ < 60000 := by
      rw [Int.floor_lt]
      push_cast
      linarith
    have hre : roundEven (pyMod x 60 * 1000) ≤ 60000 := by
      have := roundEven_le_floor_add_one (pyMod x 60 * 1000)
      omega
    have htle : t ≤ 60000 := by
      rw [ht]
      omega
    have hdiv : t / 1000 < 100 := by omega
    have hlen := renderNat_length_le (k := 2) (by norm_num) (by simpa using hdiv)
    have hne := renderNat_ne_nil (t / 1000)
    rw [padZero_length]
    have : (renderNat (t / 1000)).length ≠ 0 := by
      intro hc
      exact hne (List.eq_nil_of_length_eq_zero hc)
    omega
  · have hmod : t % 1000 < 1000 := Nat.mod_lt _ (by norm_num)
    have hlen := renderNat_length_le (k := 3) (by norm_num) (by simpa using hmod)
    have hne := renderNat_ne_nil (t % 1000)
    rw [padZero_length]
    have : (renderNat (t % 1000)).length ≠ 0 := by
      intro hc
      exact hne (List.eq_nil_of_length_eq_zero hc)
    omega

/-- C6 witness: the round-trip part of `maker_c6_format_time` evaluated at
`x = 83.5`. -/
theorem maker_c6_witness :
    ∃ v, parse_time (format_time (167 / 2)) = .ok v ∧ |v - 167 / 2| ≤ 1 / 2000 :=
  maker_c6_format_time.2.2 (167 / 2) (by norm_num)

/-! ## Claim C7 — `parse_range` ordering check -/

/-- C7: `parse_range` parses both arguments with `parse_time` and fails with
`TimeRange` exactly when the parsed start is at least the parsed end (a
zero-length range is rejected); `parse_range "10" "5"` and
`parse_range "10" "10"` fail with `TimeRange` while `parse_range "5" "10"`
returns `(5, 10)`. -/
theorem maker_c7_parse_range :
    (∀ (s e : String) (a b : ℚ), parse_time s = .ok a → parse_time e = .ok b →
      (b ≤ a → parse_range s e = .error (.timeRange a b)) ∧
      (a < b → parse_range s e = .ok (a, b))) ∧
    parse_range "10" "5" = .error (.timeRange 10 5) ∧
    parse_range "10" "10" = .error (.timeRange 10 10) ∧
    parse_range "5" "10" = .ok (5, 10) := by
  have main : ∀ (s e : String) (a b : ℚ), parse_time s = .ok a → parse_time e = .ok b →
      (b ≤ a → parse_range s e = .error (.timeRange a b)) ∧
      (a < b → parse_range s e = .ok (a, b)) := by
    intro s e a b hs he
    unfold parse_range
    rw [hs, he]
    simp only []
    constructor
    · intro hba
      rw [if_pos hba]
    · intro hab
      rw [if_neg (not_le.2 hab)]
  have p10 : parse_time "10" = .ok 10 := by with_unfolding_all decide
  have p5 : parse_time "5" = .ok 5 := by with_unfolding_all decide
  exact ⟨main,
    (main "10" "5" 10 5 p10 p5).1 (by norm_num),
    (main "10" "10" 10 10 p10 p10).1 le_rfl,
    (main "5" "10" 5 10 p5 p10).2 (by norm_num)⟩

/-- C7 witness: the general part of `maker_c7_parse_range` applied at the
concrete pair `("5", "10")`. -/
theorem maker_c7_witness : parse_range "5" "10" = .ok (5, 10) :=
  (maker_c7_parse_range.1 "5" "10" 5 10 (by with_unfolding_all decide)
    (by with_unfolding_all decide)).2 (by norm_num)

/-! ## Claim C3 — `list_downloads` glob scan -/

/-- C3 counterexample: the claim says a directory entry with a malformed
manifest is simply absent from the result rather than raising; but when the
malformed file is named `manifest.json` — so that the `*/manifest.json` glob
does match it — `list_downloads` raises (the `json.load` /
`DownloadSpec(**data)` exception propagates) instead of skipping the
entry. -/
theorem maker_c3_counterexample :
    list_downloads badDownloads = .error .pyJsonError ∧
    list_downloads badDownloads ≠ .ok [("alias1", testSpec1)] := by
  constructor
  · with_unfolding_all decide
  · with_unfolding_all decide

/-- C3 (amended): `list_downloads` maps each alias directory whose
`manifest.json` parses to its spec, in scan order; a directory with no file
named `manifest.json` (including one holding only a stray
`not-a-manifest.json`) is simply absent from the result — but a file named
`manifest.json` that is malformed makes the whole call raise.  On the spec's
example directory the result has exactly the keys `alias1` and `alias2`. -/
theorem maker_c3_list_downloads :
    (∀ dir : List DirEntry,
      (∀ e ∈ dir, ∀ p, e.files.find? (fun f => f.1 == "manifest.json") = some p →
        p.2 ≠ .malformed) →
      list_downloads dir = .ok (dir.filterMap (fun e =>
        match (e.files.find? (fun f => f.1 == "manifest.json")).map Prod.snd with
        | some (.valid s) => some (e.name, s)
        | _ => none))) ∧
    list_downloads exampleDownloads = .ok [("alias1", testSpec1), ("alias2", testSpec2)] := by
  constructor
  · intro dir
    induction dir with
    | nil => intro _; rfl
    | cons e rest ih =>
      intro h
      have hrest := ih (fun e' he' p hp => h e' (List.mem_cons_of_mem e he') p hp)
      unfold list_downloads
      cases hf : e.files.find? (fun f => f.1 == "manifest.json") with
      | none =>
        rw [List.filterMap_cons]
        simp only [hf, Option.map_none']
        exact hrest
      | some p =>
        obtain ⟨nm, c⟩ := p
        cases c with
        | malformed => exact absurd rfl (h e (List.mem_cons_self e rest) (nm, .malformed) hf)
        | valid s =>
          rw [List.filterMap_cons]
          simp only [hf, Option.map_some']
          rw [hrest]
  · with_unfolding_all decide

/-- C3 witness: the general part of `maker_c3_list_downloads` applied to the
example directory, whose single stray file is not named `manifest.json`. -/
theorem maker_c3_witness :
    list_downloads exampleDownloads = .ok (exampleDownloads.filterMap (fun e =>
      match (e.files.find? (fun f => f.1 == "manifest.json")).map Prod.snd with
      | some (.valid s) => some (e.name, s)
      | _ => none)) :=
  maker_c3_list_downloads.1 exampleDownloads (by decide)

/-! ## Claim C4 — `resolve_source` alias-then-path resolution -/

/-- C4 counterexample: the claim says that when the manifest exists but none
of its recorded files do, `resolve_source` fails with `NotFoundForAlias`,
the literal-path fallback applying only when the manifest lookup itself
fails.  In the code the whole alias attempt sits in one `try`, so the
`NotFoundForAlias` raised by `_validate_path` is also caught: with a
manifest present, none of its files on disk, and the source string itself an
existing path, `resolve_source` returns the source instead of failing. -/
theorem maker_c4_counterexample :
    resolve_source staleDownloads stalePathExists "alias1" = .ok "alias1" ∧
    findManifest staleDownloads "alias1" = some (.valid staleSpec) ∧
    staleSpec.downloaded_files.all (fun f => !stalePathExists f.path) = true ∧
    resolve_source staleDownloads stalePathExists "alias1" ≠
      .error (.notFoundForAlias "alias1") := by
  refine ⟨?_, ?_, ?_, ?_⟩ <;> with_unfolding_all decide

/-- C4 (amended): `resolve_source` first treats the source as an alias and
returns the first recorded file that still exists; on any failure of that
alias attempt — a missing manifest, or a manifest whose files are all gone —
it falls back to the literal path, returning the source when it exists on
disk and otherwise re-raising the original failure (`AliasNotFound`
respectively `NotFoundForAlias`). -/
theorem maker_c4_resolve_source :
    ∀ (downloads : List DirEntry) (pathOnDisk : String → Bool) (source : String),
      (∀ spec, findManifest downloads source = some (.valid spec) →
        (∀ f, spec.downloaded_files.find? (fun g => pathOnDisk g.path) = some f →
          resolve_source downloads pathOnDisk source = .ok f.path) ∧
        (spec.downloaded_files.find? (fun g => pathOnDisk g.path) = none →
          (pathOnDisk source = true →
            resolve_source downloads pathOnDisk source = .ok source) ∧
          (pathOnDisk source = false →
            resolve_source downloads pathOnDisk source =
              .error (.notFoundForAlias source)))) ∧
      (findManifest downloads source = none →
        (pathOnDisk source = true →
          resolve_source downloads pathOnDisk source = .ok source) ∧
        (pathOnDisk source = false →
          resolve_source downloads pathOnDisk source = .error (.aliasNotFound source))) := by
  intro downloads pathOnDisk source
  constructor
  · intro spec hm
    unfold resolve_source read_download_manifest validate_path
    rw [hm]
    simp only []
    constructor
    · intro f hf
      rw [hf]
    · intro hnone
      rw [hnone]
      simp only []
      constructor
      · intro hpd
        rw [hpd]
        simp
      · intro hpd
        rw [hpd]
        simp
  · intro hm
    unfold resolve_source read_download_manifest
    rw [hm]
    simp only []
    constructor
    · intro hpd
      rw [hpd]
      simp
    · intro hpd
      rw [hpd]
      simp

/-- C4 witness: `maker_c4_resolve_source` applied to the example directory
with `testSpec1`'s recorded file present on disk. -/
theorem maker_c4_witness :
    resolve_source exampleDownloads livePathExists "alias1" =
      .ok "downloads/alias1/v1.mp4" :=
  ((maker_c4_resolve_source exampleDownloads livePathExists "alias1").1 testSpec1
    (by decide)).1 { path := "downloads/alias1/v1.mp4", ext := "mp4", filesize := 10 }
    (by decide)

/-! ## Claim C9 — `get_info` never raises -/

/-- C9: `get_info` is total: extraction failure is returned as an
`{error: message}` value rather than raised, and a successful extraction is
reduced to the fixed projection — title, duration, uploader, view count,
upload date, the description truncated to 500 characters, thumbnail URL and
canonical page URL, each with its `info.get` default. -/
theorem maker_c9_get_info :
    (∀ (e : String) (url : String), get_info (.error e) url = .errorValue e) ∧
    (∀ (info : RawInfo) (url : String), ∃ v, get_info (.ok info) url = .info v ∧
      v.description = pyTake (info.description.getD "") 500 ∧
      v.description.length ≤ 500 ∧
      v.title = info.title.getD "Unknown" ∧
      v.duration = info.duration.getD 0 ∧
      v.uploader = info.uploader.getD "Unknown" ∧
      v.view_count = info.view_count.getD 0 ∧
      v.upload_date = info.upload_date.getD "Unknown" ∧
      v.thumbnail = info.thumbnail.getD "" ∧
      v.webpage_url = info.webpage_url.getD url) ∧
    (∀ (x : Except String RawInfo) (url : String),
      (∃ v, get_info x url = .info v) ∨ (∃ m, get_info x url = .errorValue m)) := by
  refine ⟨fun e url => rfl, ?_, ?_⟩
  · intro info url
    refine ⟨_, rfl, rfl, ?_, rfl, rfl, rfl, rfl, rfl, rfl, rfl⟩
    show (pyTake (info.description.getD "") 500).length ≤ 500
    unfold pyTake
    show ((info.description.getD "").data.take 500).length ≤ 500
    rw [List.length_take]
    omega
  · intro x url
    cases x with
    | error m => exact Or.inr ⟨m, rfl⟩
    | ok info => exact Or.inl ⟨_, rfl⟩

/-! ## Claim C2 — the `clip`/`audio` stage order -/

/-- C2 counterexample: the claim orders the stages as probe then engine then
hash+timestamp; but in a successful mp4 `clip` run the source hash and
timestamp are computed before the audio probe and before the engine is
invoked. -/
theorem maker_c2_counterexample :
    (clip testWorld testClipArgs).trace =
      [.validateFormat, .mkdirOutput, .checkOverwrite, .hashTimestamp, .probeAudio,
       .invokeEngine true, .appendRecord] ∧
    (clip testWorld testClipArgs).trace.indexOf .hashTimestamp <
      (clip testWorld testClipArgs).trace.indexOf (.invokeEngine true) ∧
    (clip testWorld testClipArgs).trace.indexOf .hashTimestamp <
      (clip testWorld testClipArgs).trace.indexOf .probeAudio := by
  have h : (clip testWorld testClipArgs).trace =
      [.validateFormat, .mkdirOutput, .checkOverwrite, .hashTimestamp, .probeAudio,
       .invokeEngine true, .appendRecord] := by
    rw [clip_engine_ok (by decide) (by decide) (by decide) (by decide) (by decide)
      (by decide)]
    decide
  exact ⟨h, by rw [h]; decide, by rw [h]; decide⟩

/-- C2 (amended): for both `clip` and `audio` the stages run as: validate
format, create the output directory, check the overwrite policy, then — for
`audio` — probe audio, then compute source hash and timestamp **before**
the engine is invoked (for non-GIF `clip` the probe sits between hash and
engine; GIF skips the probe entirely), then the engine, and the artifact
record append last; any validation failure (`UnsupportedFormat`,
`FileAlreadyExists`, `NoAudioStream`) short-circuits with the engine never
invoked, nothing appended, and the world unchanged. -/
theorem maker_c2_pipeline :
    ∀ (w : CutWorld) (ca : ClipArgs) (aa : AudioArgs),
      ((clip w ca).outcome = .error .unsupportedFormat ∨
       (∃ p, (clip w ca).outcome = .error (.fileAlreadyExists p)) ∨
       (∃ p, (clip w ca).outcome = .error (.noAudioStream p)) →
        (∀ b, Step.invokeEngine b ∉ (clip w ca).trace) ∧
        Step.appendRecord ∉ (clip w ca).trace ∧ (clip w ca).world = w) ∧
      ((clip w ca).outcome.isOk = true →
        (ca.fmt = .gif ∧ (clip w ca).trace =
            [.validateFormat, .mkdirOutput, .checkOverwrite, .hashTimestamp,
             .invokeEngine false, .appendRecord]) ∨
        (ca.fmt ≠ .gif ∧ (clip w ca).trace =
            [.validateFormat, .mkdirOutput, .checkOverwrite, .hashTimestamp, .probeAudio,
             .invokeEngine (probe_audio w), .appendRecord])) ∧
      ((audio w aa).outcome = .error .unsupportedFormat ∨
       (∃ p, (audio w aa).outcome = .error (.fileAlreadyExists p)) ∨
       (∃ p, (audio w aa).outcome = .error (.noAudioStream p)) →
        (∀ b, Step.invokeEngine b ∉ (audio w aa).trace) ∧
        Step.appendRecord ∉ (audio w aa).trace ∧ (audio w aa).world = w) ∧
      ((audio w aa).outcome.isOk = true →
        (audio w aa).trace =
          [.validateFormat, .mkdirOutput, .checkOverwrite, .probeAudio, .hashTimestamp,
           .invokeEngine true, .appendRecord]) := by
  intro w ca aa
  have clipPart :
      ((clip w ca).outcome = .error .unsupportedFormat ∨
       (∃ p, (clip w ca).outcome = .error (.fileAlreadyExists p)) ∨
       (∃ p, (clip w ca).outcome = .error (.noAudioStream p)) →
        (∀ b, Step.invokeEngine b ∉ (clip w ca).trace) ∧
        Step.appendRecord ∉ (clip w ca).trace ∧ (clip w ca).world = w) ∧
      ((clip w ca).outcome.isOk = true →
        (ca.fmt = .gif ∧ (clip w ca).trace =
            [.validateFormat, .mkdirOutput, .checkOverwrite, .hashTimestamp,
             .invokeEngine false, .appendRecord]) ∨
        (ca.fmt ≠ .gif ∧ (clip w ca).trace =
            [.validateFormat, .mkdirOutput, .checkOverwrite, .hashTimestamp, .probeAudio,
             .invokeEngine (probe_audio w), .appendRecord])) := by
    by_cases hf : ca.fmt ∈ SUPPORTED_VIDEO_FORMATS
    · by_cases hc : get_output_path ca.sourceStem ca.start ca.stop ca.fmt ca.outputDir ∈
          w.files ∧ ca.overwrite = false
      · rw [clip_clash hf hc]
        exact ⟨fun _ => ⟨fun b => by simp, by simp, rfl⟩, fun h2 => by simp [Except.isOk, Except.toBool] at h2⟩
      · by_cases hg : ca.fmt = .gif
        · by_cases he : w.engineOk = true
          · rw [clip_gif_ok hf hc hg he]
            refine ⟨fun h1 => ?_, fun _ => Or.inl ⟨hg, rfl⟩⟩
            rcases h1 with h | ⟨p, h⟩ | ⟨p, h⟩ <;> simp at h
          · rw [clip_gif_engine_fail hf hc hg (by simpa using he)]
            refine ⟨fun h1 => ?_, fun h2 => by simp [Except.isOk, Except.toBool] at h2⟩
            rcases h1 with h | ⟨p, h⟩ | ⟨p, h⟩ <;> simp at h
        · by_cases hna : probe_audio w = false ∧ ca.allowNoAudio = false
          · rw [clip_no_audio hf hc hg hna.1 hna.2]
            exact ⟨fun _ => ⟨fun b => by simp, by simp, rfl⟩, fun h2 => by simp [Except.isOk, Except.toBool] at h2⟩
          · by_cases hpn : w.probeOutcome = none
            · rw [clip_probe_raise hf hc hg hna hpn]
              refine ⟨fun h1 => ?_, fun h2 => by simp [Except.isOk, Except.toBool] at h2⟩
              rcases h1 with h | ⟨p, h⟩ | ⟨p, h⟩ <;> simp at h
            · by_cases he : w.engineOk = true
              · rw [clip_engine_ok hf hc hg hna hpn he]
                refine ⟨fun h1 => ?_, fun _ => Or.inr ⟨hg, rfl⟩⟩
                rcases h1 with h | ⟨p, h⟩ | ⟨p, h⟩ <;> simp at h
              · rw [clip_engine_fail hf hc hg hna hpn (by simpa using he)]
                refine ⟨fun h1 => ?_, fun h2 => by simp [Except.isOk, Except.toBool] at h2⟩
                rcases h1 with h | ⟨p, h⟩ | ⟨p, h⟩ <;> simp at h
    · rw [clip_not_supported hf]
      exact ⟨fun _ => ⟨fun b => by simp, by simp, rfl⟩, fun h2 => by simp [Except.isOk, Except.toBool] at h2⟩
  have audioPart :
      ((audio w aa).outcome = .error .unsupportedFormat ∨
       (∃ p, (audio w aa).outcome = .error (.fileAlreadyExists p)) ∨
       (∃ p, (audio w aa).outcome = .error (.noAudioStream p)) →
        (∀ b, Step.invokeEngine b ∉ (audio w aa).trace) ∧
        Step.appendRecord ∉ (audio w aa).trace ∧ (audio w aa).world = w) ∧
      ((audio w aa).outcome.isOk = true →
        (audio w aa).trace =
          [.validateFormat, .mkdirOutput, .checkOverwrite, .probeAudio, .hashTimestamp,
           .invokeEngine true, .appendRecord]) := by
    by_cases hf : aa.fmt ∈ SUPPORTED_AUDIO_FORMATS
    · by_cases hc : get_output_path aa.sourceStem aa.start aa.stop aa.fmt aa.outputDir ∈
          w.files ∧ aa.overwrite = false
      · rw [audio_clash hf hc]
        exact ⟨fun _ => ⟨fun b => by simp, by simp, rfl⟩, fun h2 => by simp [Except.isOk, Except.toBool] at h2⟩
      · by_cases hp : probe_audio w = true
        · by_cases he : w.engineOk = true
          · rw [audio_ok hf hc hp he]
            exact ⟨fun h1 => by rcases h1 with h | ⟨p, h⟩ | ⟨p, h⟩ <;> simp at h,
              fun _ => rfl⟩
          · rw [audio_engine_fail hf hc hp (by simpa using he)]
            refine ⟨fun h1 => ?_, fun h2 => by simp [Except.isOk, Except.toBool] at h2⟩
            rcases h1 with h | ⟨p, h⟩ | ⟨p, h⟩ <;> simp at h
        · rw [audio_no_audio hf hc (by simpa using hp)]
          exact ⟨fun _ => ⟨fun b => by simp, by simp, rfl⟩, fun h2 => by simp [Except.isOk, Except.toBool] at h2⟩
    · rw [audio_not_supported hf]
      exact ⟨fun _ => ⟨fun b => by simp, by simp, rfl⟩, fun h2 => by simp [Except.isOk, Except.toBool] at h2⟩
  exact ⟨clipPart.1, clipPart.2, audioPart.1, audioPart.2⟩

/-- C2 witness: the audio-success stage order of `maker_c2_pipeline` at the
concrete fresh world, where the run succeeds. -/
theorem maker_c2_witness :
    (audio testWorld testAudioArgs).trace =
      [.validateFormat, .mkdirOutput, .checkOverwrite, .probeAudio, .hashTimestamp,
       .invokeEngine true, .appendRecord] :=
  (maker_c2_pipeline testWorld testClipArgs testAudioArgs).2.2.2
    (by rw [audio_ok (by decide) (by decide) (by decide) (by decide)]; rfl)

/-! ## Claim C5 — the artifact log is append-only -/

/-- C5: the artifact log only ever grows: a successful `clip`/`audio` call
appends exactly its one record to `artifacts.jsonl` and a failed call
appends nothing, prior entries never being read, rewritten or deleted; and
on identical arguments with `overwrite = False` the second `clip` call
fails with `FileAlreadyExists` appending nothing, while with
`overwrite = True` it succeeds and the log holds exactly the two records. -/
theorem maker_c5_append_only :
    (∀ (w : CutWorld) (ca : ClipArgs),
      ((clip w ca).outcome.isOk = true →
        (clip w ca).world.artifacts = w.artifacts ++ [.clipRec (clipSpecOf w ca)]) ∧
      ((clip w ca).outcome.isOk = false → (clip w ca).world.artifacts = w.artifacts)) ∧
    (∀ (w : CutWorld) (aa : AudioArgs),
      ((audio w aa).outcome.isOk = true →
        (audio w aa).world.artifacts = w.artifacts ++ [.audioRec (audioSpecOf w aa)]) ∧
      ((audio w aa).outcome.isOk = false → (audio w aa).world.artifacts = w.artifacts)) ∧
    (∀ (w : CutWorld) (ca : ClipArgs), ca.overwrite = false →
      (clip w ca).outcome.isOk = true →
      (clip (clip w ca).world ca).outcome = .error (.fileAlreadyExists
        (get_output_path ca.sourceStem ca.start ca.stop ca.fmt ca.outputDir)) ∧
      (clip (clip w ca).world ca).world.artifacts = (clip w ca).world.artifacts ∧
      (clip (clip w ca).world { ca with overwrite := true }).outcome.isOk = true ∧
      (clip (clip w ca).world { ca with overwrite := true }).world.artifacts =
        w.artifacts ++ [.clipRec (clipSpecOf w ca),
          .clipRec (clipSpecOf (clip w ca).world { ca with overwrite := true })]) := by
  refine ⟨?_, ?_, ?_⟩
  · intro w ca
    by_cases hf : ca.fmt ∈ SUPPORTED_VIDEO_FORMATS
    · by_cases hc : get_output_path ca.sourceStem ca.start ca.stop ca.fmt ca.outputDir ∈
          w.files ∧ ca.overwrite = false
      · rw [clip_clash hf hc]
        exact ⟨fun h => by simp [Except.isOk, Except.toBool] at h, fun _ => rfl⟩
      · by_cases hg : ca.fmt = .gif
        · by_cases he : w.engineOk = true
          · rw [clip_gif_ok hf hc hg he]
            exact ⟨fun _ => rfl, fun h => by simp [Except.isOk, Except.toBool] at h⟩
          · rw [clip_gif_engine_fail hf hc hg (by simpa using he)]
            exact ⟨fun h => by simp [Except.isOk, Except.toBool] at h, fun _ => rfl⟩
        · by_cases hna : probe_audio w = false ∧ ca.allowNoAudio = false
          · rw [clip_no_audio hf hc hg hna.1 hna.2]
            exact ⟨fun h => by simp [Except.isOk, Except.toBool] at h, fun _ => rfl⟩
          · by_cases hpn : w.probeOutcome = none
            · rw [clip_probe_raise hf hc hg hna hpn]
              exact ⟨fun h => by simp [Except.isOk, Except.toBool] at h, fun _ => rfl⟩
            · by_cases he : w.engineOk = true
              · rw [clip_engine_ok hf hc hg hna hpn he]
                exact ⟨fun _ => rfl, fun h => by simp [Except.isOk, Except.toBool] at h⟩
              · rw [clip_engine_fail hf hc hg hna hpn (by simpa using he)]
                exact ⟨fun h => by simp [Except.isOk, Except.toBool] at h, fun _ => rfl⟩
    · rw [clip_not_supported hf]
      exact ⟨fun h => by simp [Except.isOk, Except.toBool] at h, fun _ => rfl⟩
  · intro w aa
    by_cases hf : aa.fmt ∈ SUPPORTED_AUDIO_FORMATS
    · by_cases hc : get_output_path aa.sourceStem aa.start aa.stop aa.fmt aa.outputDir ∈
          w.files ∧ aa.overwrite = false
      · rw [audio_clash hf hc]
        exact ⟨fun h => by simp [Except.isOk, Except.toBool] at h, fun _ => rfl⟩
      · by_cases hp : probe_audio w = true
        · by_cases he : w.engineOk = true
          · rw [audio_ok hf hc hp he]
            exact ⟨fun _ => rfl, fun h => by simp [Except.isOk, Except.toBool] at h⟩
          · rw [audio_engine_fail hf hc hp (by simpa using he)]
            exact ⟨fun h => by simp [Except.isOk, Except.toBool] at h, fun _ => rfl⟩
        · rw [audio_no_audio hf hc (by simpa using hp)]
          exact ⟨fun h => by simp [Except.isOk, Except.toBool] at h, fun _ => rfl⟩
    · rw [audio_not_supported hf]
      exact ⟨fun h => by simp [Except.isOk, Except.toBool] at h, fun _ => rfl⟩
  · intro w ca hov hok
    by_cases hf : ca.fmt ∈ SUPPORTED_VIDEO_FORMATS
    · by_cases hc : get_output_path ca.sourceStem ca.start ca.stop ca.fmt ca.outputDir ∈
          w.files ∧ ca.overwrite = false
      · rw [clip_clash hf hc] at hok
        simp [Except.isOk, Except.toBool] at hok
      · have hc2 : get_output_path ca.sourceStem ca.start ca.stop ca.fmt ca.outputDir ∈
            (clipSuccessWorld w ca).files ∧ ca.overwrite = false :=
          ⟨List.mem_cons_self _ _, hov⟩
        have hc3 : ¬(get_output_path ca.sourceStem ca.start ca.stop ca.fmt
            ca.outputDir ∈ (clipSuccessWorld w ca).files ∧
            ({ ca with overwrite := true } : ClipArgs).overwrite = false) := by
          rintro ⟨-, hfalse⟩
          cases hfalse
        have hf2 : ({ ca with overwrite := true } : ClipArgs).fmt ∈
            SUPPORTED_VIDEO_FORMATS := hf
        by_cases hg : ca.fmt = .gif
        · by_cases he : w.engineOk = true
          · have h1 := clip_gif_ok hf hc hg he
            have hw1 : (clip w ca).world = clipSuccessWorld w ca := by rw [h1]
            have he2 : (clipSuccessWorld w ca).engineOk = true := he
            have hg2 : ({ ca with overwrite := true } : ClipArgs).fmt = .gif := hg
            have h2 := clip_clash (w := clipSuccessWorld w ca) hf hc2
            have h3 := clip_gif_ok (w := clipSuccessWorld w ca)
              (a := { ca with overwrite := true }) hf2 hc3 hg2 he2
            rw [hw1, h2, h3]
            refine ⟨rfl, rfl, rfl, ?_⟩
            show (clipSuccessWorld (clipSuccessWorld w ca) _).artifacts = _
            simp [clipSuccessWorld, clipSpecOf]
          · rw [clip_gif_engine_fail hf hc hg (by simpa using he)] at hok
            simp [Except.isOk, Except.toBool] at hok
        · by_cases hna : probe_audio w = false ∧ ca.allowNoAudio = false
          · rw [clip_no_audio hf hc hg hna.1 hna.2] at hok
            simp [Except.isOk, Except.toBool] at hok
          · by_cases hpn : w.probeOutcome = none
            · rw [clip_probe_raise hf hc hg hna hpn] at hok
              simp [Except.isOk, Except.toBool] at hok
            · by_cases he : w.engineOk = true
              · have h1 := clip_engine_ok hf hc hg hna hpn he
                have hw1 : (clip w ca).world = clipSuccessWorld w ca := by rw [h1]
                have he2 : (clipSuccessWorld w ca).engineOk = true := he
                have hg2 : ({ ca with overwrite := true } : ClipArgs).fmt ≠ .gif := hg
                have hna2 : ¬(probe_audio (clipSuccessWorld w ca) = false ∧
                    ({ ca with overwrite := true } : ClipArgs).allowNoAudio = false) := hna
                have hpn2 : (clipSuccessWorld w ca).probeOutcome ≠ none := hpn
                have h2 := clip_clash (w := clipSuccessWorld w ca) hf hc2
                have h3 := clip_engine_ok (w := clipSuccessWorld w ca)
                  (a := { ca with overwrite := true }) hf2 hc3 hg2 hna2 hpn2 he2
                rw [hw1, h2, h3]
                refine ⟨rfl, rfl, rfl, ?_⟩
                show (clipSuccessWorld (clipSuccessWorld w ca) _).artifacts = _
                simp [clipSuccessWorld, clipSpecOf]
              · rw [clip_engine_fail hf hc hg hna hpn (by simpa using he)] at hok
                simp [Except.isOk, Except.toBool] at hok
    · rw [clip_not_supported hf] at hok
      simp [Except.isOk, Except.toBool] at hok

/-- C5 witness: the double-call scenario of `maker_c5_append_only` at the
concrete fresh world, where the first mp4 clip succeeds. -/
theorem maker_c5_witness :
    (clip (clip testWorld testClipArgs).world testClipArgs).outcome =
      .error (.fileAlreadyExists (get_output_path testClipArgs.sourceStem testClipArgs.start
        testClipArgs.stop testClipArgs.fmt testClipArgs.outputDir)) ∧
    (clip (clip testWorld testClipArgs).world testClipArgs).world.artifacts =
      (clip testWorld testClipArgs).world.artifacts ∧
    (clip (clip testWorld testClipArgs).world
      { testClipArgs with overwrite := true }).outcome.isOk = true ∧
    (clip (clip testWorld testClipArgs).world
      { testClipArgs with overwrite := true }).world.artifacts =
      testWorld.artifacts ++ [.clipRec (clipSpecOf testWorld testClipArgs),
        .clipRec (clipSpecOf (clip testWorld testClipArgs).world
          { testClipArgs with overwrite := true })] :=
  maker_c5_append_only.2.2 testWorld testClipArgs rfl
    (by rw [clip_engine_ok (by decide) (by decide) (by decide) (by decide) (by decide)
      (by decide)]; rfl)

/-! ## Claim C8 — `NoAudioStream` policy -/

/-- C8 counterexample: the claim says `clip` raises `NoAudioStream` for
every audio-less source when `allow_no_audio` is false; but a GIF clip
never probes the source for audio and succeeds on an audio-less source
even with `allow_no_audio = False`. -/
theorem maker_c8_counterexample :
    probe_audio { testWorld with probeOutcome := some false } = false ∧
    (clip { testWorld with probeOutcome := some false }
      { testClipArgs with fmt := .gif }).outcome.isOk = true := by
  refine ⟨rfl, ?_⟩
  rw [clip_gif_ok (by decide) (by decide) rfl rfl]
  rfl

/-- C8 (amended): for a source without an audio stream, non-GIF `clip` with
`allow_no_audio = False` fails with `NoAudioStream` and with
`allow_no_audio = True` succeeds with a video-only output (the engine is
invoked without an audio stream); a GIF clip skips the audio probe and
succeeds regardless of `allow_no_audio`; `audio` fails with `NoAudioStream`
unconditionally. -/
theorem maker_c8_no_audio :
    ∀ (w : CutWorld) (ca : ClipArgs) (aa : AudioArgs), w.probeOutcome = some false →
      (ca.fmt = .mp4 ∨ ca.fmt = .mkv ∨ ca.fmt = .webm →
        ¬(get_output_path ca.sourceStem ca.start ca.stop ca.fmt ca.outputDir ∈ w.files ∧
          ca.overwrite = false) →
        ca.allowNoAudio = false →
        (clip w ca).outcome = .error (.noAudioStream ca.sourcePath)) ∧
      (ca.fmt ∈ SUPPORTED_VIDEO_FORMATS → ca.allowNoAudio = true →
        ¬(get_output_path ca.sourceStem ca.start ca.stop ca.fmt ca.outputDir ∈ w.files ∧
          ca.overwrite = false) →
        w.engineOk = true →
        (clip w ca).outcome = .ok (clipSpecOf w ca) ∧
        Step.invokeEngine false ∈ (clip w ca).trace) ∧
      (ca.fmt = .gif →
        ¬(get_output_path ca.sourceStem ca.start ca.stop ca.fmt ca.outputDir ∈ w.files ∧
          ca.overwrite = false) →
        w.engineOk = true →
        (clip w ca).outcome = .ok (clipSpecOf w ca)) ∧
      (aa.fmt ∈ SUPPORTED_AUDIO_FORMATS →
        ¬(get_output_path aa.sourceStem aa.start aa.stop aa.fmt aa.outputDir ∈ w.files ∧
          aa.overwrite = false) →
        (audio w aa).outcome = .error (.noAudioStream aa.sourcePath)) := by
  intro w ca aa hw
  have hpa : probe_audio w = false := by rw [probe_audio, hw]; rfl
  refine ⟨?_, ?_, ?_, ?_⟩
  · intro hfmt hc hana
    have hf : ca.fmt ∈ SUPPORTED_VIDEO_FORMATS := by
      rcases hfmt with h | h | h <;> rw [h] <;> decide
    have hg : ca.fmt ≠ .gif := by
      rcases hfmt with h | h | h <;> rw [h] <;> decide
    rw [clip_no_audio hf hc hg hpa hana]
  · intro hf hana hc he
    by_cases hg : ca.fmt = .gif
    · rw [clip_gif_ok hf hc hg he]
      exact ⟨rfl, by simp⟩
    · have hna : ¬(probe_audio w = false ∧ ca.allowNoAudio = false) := by
        rintro ⟨-, hfalse⟩
        rw [hana] at hfalse
        cases hfalse
      have hpn : w.probeOutcome ≠ none := by rw [hw]; exact Option.some_ne_none _
      rw [clip_engine_ok hf hc hg hna hpn he]
      refine ⟨rfl, ?_⟩
      simp [hpa]
  · intro hg hc he
    have hf : ca.fmt ∈ SUPPORTED_VIDEO_FORMATS := by rw [hg]; decide
    rw [clip_gif_ok hf hc hg he]
  · intro hf hc
    rw [audio_no_audio hf hc hpa]

/-- C8 witness: `maker_c8_no_audio` at a concrete audio-less world — the
mp4 clip with `allow_no_audio = False` fails with `NoAudioStream`. -/
theorem maker_c8_witness :
    (clip { testWorld with probeOutcome := some false } testClipArgs).outcome =
      .error (.noAudioStream testClipArgs.sourcePath) :=
  (maker_c8_no_audio { testWorld with probeOutcome := some false } testClipArgs
    testAudioArgs rfl).1 (Or.inl rfl) (by decide) rfl

/-! ## Claim C10 — a failing probe reads as "no audio stream" -/

/-- C10: when the probe itself raises, `_probe_audio` swallows the failure
into `False`, so at the public interface a probe failure is
indistinguishable from a genuine absence of an audio track: with
`allow_no_audio = False`, `clip` and `audio` produce the same outcome and
trace in the probe-raising world as in the no-audio world — in particular,
for non-GIF formats `clip` fails with `NoAudioStream` (not `FFmpegError`),
and so does `audio`. -/
theorem maker_c10_probe_failure :
    ∀ (w : CutWorld) (ca : ClipArgs) (aa : AudioArgs), ca.allowNoAudio = false →
      probe_audio { w with probeOutcome := none } = false ∧
      (clip { w with probeOutcome := none } ca).outcome =
        (clip { w with probeOutcome := some false } ca).outcome ∧
      (clip { w with probeOutcome := none } ca).trace =
        (clip { w with probeOutcome := some false } ca).trace ∧
      (audio { w with probeOutcome := none } aa).outcome =
        (audio { w with probeOutcome := some false } aa).outcome ∧
      (audio { w with probeOutcome := none } aa).trace =
        (audio { w with probeOutcome := some false } aa).trace ∧
      (ca.fmt = .mp4 ∨ ca.fmt = .mkv ∨ ca.fmt = .webm →
        ¬(get_output_path ca.sourceStem ca.start ca.stop ca.fmt ca.outputDir ∈ w.files ∧
          ca.overwrite = false) →
        (clip { w with probeOutcome := none } ca).outcome =
          .error (.noAudioStream ca.sourcePath)) ∧
      (aa.fmt ∈ SUPPORTED_AUDIO_FORMATS →
        ¬(get_output_path aa.sourceStem aa.start aa.stop aa.fmt aa.outputDir ∈ w.files ∧
          aa.overwrite = false) →
        (audio { w with probeOutcome := none } aa).outcome =
          .error (.noAudioStream aa.sourcePath)) := by
  intro w ca aa hana
  have hpaN : probe_audio { w with probeOutcome := none } = false := rfl
  have hpaF : probe_audio { w with probeOutcome := some false } = false := rfl
  have hclip : (clip { w with probeOutcome := none } ca).outcome =
        (clip { w with probeOutcome := some false } ca).outcome ∧
      (clip { w with probeOutcome := none } ca).trace =
        (clip { w with probeOutcome := some false } ca).trace := by
    by_cases hf : ca.fmt ∈ SUPPORTED_VIDEO_FORMATS
    · by_cases hc : get_output_path ca.sourceStem ca.start ca.stop ca.fmt ca.outputDir ∈
          w.files ∧ ca.overwrite = false
      · have hcN : get_output_path ca.sourceStem ca.start ca.stop ca.fmt ca.outputDir ∈
            ({ w with probeOutcome := none } : CutWorld).files ∧ ca.overwrite = false := hc
        have hcF : get_output_path ca.sourceStem ca.start ca.stop ca.fmt ca.outputDir ∈
            ({ w with probeOutcome := some false } : CutWorld).files ∧
            ca.overwrite = false := hc
        rw [clip_clash hf hcN, clip_clash hf hcF]
        exact ⟨rfl, rfl⟩
      · have hcN : ¬(get_output_path ca.sourceStem ca.start ca.stop ca.fmt ca.outputDir ∈
            ({ w with probeOutcome := none } : CutWorld).files ∧ ca.overwrite = false) := hc
        have hcF : ¬(get_output_path ca.sourceStem ca.start ca.stop ca.fmt ca.outputDir ∈
            ({ w with probeOutcome := some false } : CutWorld).files ∧
            ca.overwrite = false) := hc
        by_cases hg : ca.fmt = .gif
        · by_cases he : w.engineOk = true
          · have heN : ({ w with probeOutcome := none } : CutWorld).engineOk = true := he
            have heF : ({ w with probeOutcome := some false } : CutWorld).engineOk =
              true := he
            rw [clip_gif_ok hf hcN hg heN, clip_gif_ok hf hcF hg heF]
            exact ⟨rfl, rfl⟩
          · have heN : ({ w with probeOutcome := none } : CutWorld).engineOk = false := by
              simpa using he
            have heF : ({ w with probeOutcome := some false } : CutWorld).engineOk =
                false := by
              simpa using he
            rw [clip_gif_engine_fail hf hcN hg heN, clip_gif_engine_fail hf hcF hg heF]
            exact ⟨rfl, rfl⟩
        · rw [clip_no_audio hf hcN hg hpaN hana, clip_no_audio hf hcF hg hpaF hana]
          exact ⟨rfl, rfl⟩
    · rw [clip_not_supported hf, clip_not_supported hf]
      exact ⟨rfl, rfl⟩
  have haudio : (audio { w with probeOutcome := none } aa).outcome =
        (audio { w with probeOutcome := some false } aa).outcome ∧
      (audio { w with probeOutcome := none } aa).trace =
        (audio { w with probeOutcome := some false } aa).trace := by
    by_cases hf : aa.fmt ∈ SUPPORTED_AUDIO_FORMATS
    · by_cases hc : get_output_path aa.sourceStem aa.start aa.stop aa.fmt aa.outputDir ∈
          w.files ∧ aa.overwrite = false
      · have hcN : get_output_path aa.sourceStem aa.start aa.stop aa.fmt aa.outputDir ∈
            ({ w with probeOutcome := none } : CutWorld).files ∧ aa.overwrite = false := hc
        have hcF : get_output_path aa.sourceStem aa.start aa.stop aa.fmt aa.outputDir ∈
            ({ w with probeOutcome := some false } : CutWorld).files ∧
            aa.overwrite = false := hc
        rw [audio_clash hf hcN, audio_clash hf hcF]
        exact ⟨rfl, rfl⟩
      · have hcN : ¬(get_output_path aa.sourceStem aa.start aa.stop aa.fmt aa.outputDir ∈
            ({ w with probeOutcome := none } : CutWorld).files ∧ aa.overwrite = false) := hc
        have hcF : ¬(get_output_path aa.sourceStem aa.start aa.stop aa.fmt aa.outputDir ∈
            ({ w with probeOutcome := some false } : CutWorld).files ∧
            aa.overwrite = false) := hc
        rw [audio_no_audio hf hcN hpaN, audio_no_audio hf hcF hpaF]
        exact ⟨rfl, rfl⟩
    · rw [audio_not_supported hf, audio_not_supported hf]
      exact ⟨rfl, rfl⟩
  refine ⟨hpaN, hclip.1, hclip.2, haudio.1, haudio.2, ?_, ?_⟩
  · intro hfmt hc
    have hf : ca.fmt ∈ SUPPORTED_VIDEO_FORMATS := by
      rcases hfmt with h | h | h <;> rw [h] <;> decide
    have hg : ca.fmt ≠ .gif := by
      rcases hfmt with h | h | h <;> rw [h] <;> decide
    have hcN : ¬(get_output_path ca.sourceStem ca.start ca.stop ca.fmt ca.outputDir ∈
        ({ w with probeOutcome := none } : CutWorld).files ∧ ca.overwrite = false) := hc
    rw [clip_no_audio hf hcN hg hpaN hana]
  · intro hf hc
    have hcN : ¬(get_output_path aa.sourceStem aa.start aa.stop aa.fmt aa.outputDir ∈
        ({ w with probeOutcome := none } : CutWorld).files ∧ aa.overwrite = false) := hc
    rw [audio_no_audio hf hcN hpaN]

/-- C10 witness: `maker_c10_probe_failure` at the concrete world — the mp4
clip fails with `NoAudioStream` when the probe itself raises. -/
theorem maker_c10_witness :
    (clip { testWorld with probeOutcome := none } testClipArgs).outcome =
      .error (.noAudioStream testClipArgs.sourcePath) :=
  (maker_c10_probe_failure testWorld testClipArgs testAudioArgs rfl).2.2.2.2.2.1
    (Or.inl rfl) (by decide)

end Maker
